import Mathlib

/-!
Verification of the cafedelia synchronization engine.

This file gives a shallow embedding of the sync core of the repository
(`src/sync/incremental_sync.py`, `src/sync/message_parser.py`,
`src/sync/content_extractor.py`, `src/sync/content_truncator.py`,
`src/sync/persistence_coordinator.py`, `src/sync/session_state_manager.py`)
and proves or refutes the frozen specification claims about it.

Conventions of the embedding:
* Python strings are modelled as `List Char` (`Str`), so that slicing,
  splitting, joining and length computations mirror the Python operations
  per code point.
* A JSON line has already been decoded by `json.loads` (an external
  library); the decoded record is modelled by the structure `RawRecord`
  whose fields mirror exactly the keys the source code reads with
  `dict.get`.  A field the code reads with `.get(k)` is an `Option`;
  defaults from `.get(k, d)` are applied at the use site, as in the code.
* `datetime` values are modelled as `Nat`; `datetime.utcnow()` is an
  explicit clock parameter threaded to the functions that call it.
* The SQL store is modelled as explicit lists of rows; `session.add` is an
  append, `flush` assigns the next id, and closing an uncommitted session
  rolls the store back (the behaviour of `get_session` in
  `elia_chat/database/database.py`, which never auto-commits).
-/

set_option maxRecDepth 10000

namespace Cafedelia

/-- Python strings as lists of code points. -/
abbrev Str := List Char

/-- Shorthand for writing `Str` literals. -/
def pyStr (s : String) : Str := s.data

/-- Python whitespace test used by `str.strip` / `str.rstrip` / `str.lstrip`. -/
def pyIsSpace (c : Char) : Bool :=
  c = ' ' || c = '\t' || c = '\n' || c = '\r' || c = '\x0b' || c = '\x0c'

/-- Python `str.lstrip()`. -/
def pyLstrip (s : Str) : Str := s.dropWhile pyIsSpace

/-- Python `str.rstrip()`. -/
def pyRstrip (s : Str) : Str := (s.reverse.dropWhile pyIsSpace).reverse

/-- Python `str.strip()`. -/
def pyStrip (s : Str) : Str := pyRstrip (pyLstrip s)

/-- Python `str.lower()` (ASCII is all the source ever compares). -/
def pyLower (s : Str) : Str := s.map Char.toLower

/-- Python `needle in hay` substring test. -/
def strContains (hay needle : Str) : Bool :=
  decide (needle <:+: hay)

/-- Python `sep.join(parts)`. -/
def pyJoin (sep : Str) : List Str → Str
  | [] => []
  | [p] => p
  | p :: rest => p ++ sep ++ pyJoin sep rest

/-- Python `s.split(c)` for a single-character separator. -/
def pySplit (c : Char) (s : Str) : List Str :=
  match s with
  | [] => [[]]
  | x :: xs =>
    match pySplit c xs with
    | [] => [[]]
    | p :: ps => if x = c then [] :: p :: ps else (x :: p) :: ps

/-- Python `s.rfind(c)`: index of the last occurrence, `-1` when absent. -/
def pyRfind (s : Str) (c : Char) : Int :=
  match s with
  | [] => -1
  | x :: xs =>
    let r := pyRfind xs c
    if r ≥ 0 then r + 1 else if x = c then 0 else -1

/-- Python `str(n)` for a natural number. -/
def natToStr (n : Nat) : Str := Nat.toDigits 10 n

/-- Python `s[-n:]` for `n > 0` (the one caller guarantees `n ≥ 34`). -/
def pyTakeLast (n : Nat) (s : Str) : Str := s.drop (s.length - n)

/-- A leaf JSON value as it appears one level inside a decoded record
(e.g. a value of a `tool_use` `input` dict).  The source code only ever
inspects such values one level deep: a string is rendered (possibly
truncated), a nested list or dict is rendered as its type name only, so
nested containers are modelled as opaque tags. -/
inductive PVal where
  | s (v : Str)
  | n (v : Nat)
  | i (v : Int)
  | b (v : Bool)
  | nil
  | lstTag
  | dictTag
  deriving Repr, DecidableEq, Inhabited

/-- A JSON-serialisable metadata value (model of the Python values the
source stores into its metadata dicts). -/
inductive MVal where
  | s (v : Str)
  | n (v : Nat)
  | i (v : Int)
  | b (v : Bool)
  | nil
  | lst (v : List PVal)
  | dict (v : List (Str × PVal))
  deriving Repr, DecidableEq, Inhabited

/-- A Python dict used as a metadata map: an association list with unique
keys, first match wins on lookup, assignment replaces in place. -/
abbrev Metadata := List (Str × MVal)

/-- `d.get(k)` on a metadata dict. -/
def mget (m : Metadata) (k : Str) : Option MVal :=
  (m.find? (fun p => p.1 = k)).map (·.2)

/-- `d[k] = v` on a metadata dict: replace an existing binding in place,
otherwise append. -/
def mset (m : Metadata) (k : Str) (v : MVal) : Metadata :=
  match m with
  | [] => [(k, v)]
  | (k', v') :: rest =>
    if k' = k then (k, v) :: rest else (k', v') :: mset rest k v

/-- `d.update(d2)` on a metadata dict. -/
def mupdate (m : Metadata) (kvs : Metadata) : Metadata :=
  kvs.foldl (fun acc p => mset acc p.1 p.2) m

/-- Python truthiness of a metadata value. -/
def MVal.truthy : MVal → Bool
  | .s v => !v.isEmpty
  | .n v => v != 0
  | .i v => v != 0
  | .b v => v
  | .nil => false
  | .lst v => !v.isEmpty
  | .dict v => !v.isEmpty

/-- Python `str(value)` for a leaf value (used when rendering tool
parameters with an f-string). -/
def PVal.pyRepr : PVal → Str
  | .s v => v
  | .n v => natToStr v
  | .i v => if v < 0 then '-' :: natToStr v.natAbs else natToStr v.natAbs
  | .b v => if v then pyStr "True" else pyStr "False"
  | .nil => pyStr "None"
  | .lstTag => pyStr "[list]"
  | .dictTag => pyStr "[dict]"

/-! ## Decoded log records

`RawRecord` models the dict produced by `json.loads` on one log line,
restricted to the keys the sync code reads.  `Option` marks a possibly
absent key.  Two modelling notes, both documented where they matter:
the repository's records carry string-valued top-level `content` and
string-valued `tool_result` contents, so those are modelled as strings;
and `datetime.fromisoformat` (an external library) is modelled by the
`timestampVal` field carrying the parse result of `timestampStr`
(`none` = absent or unparseable). -/

/-- One typed block of a structured `message.content` array. `other`
stands for a non-dict item or an item with an unrecognised `type`. -/
inductive Block where
  | text (s : Option Str)
  | toolUse (name : Option Str) (id : Option Str) (input : List (Str × PVal))
  | toolResult (content : Option Str)
  | other
  deriving Repr, DecidableEq, Inhabited

/-- A `message.content` value: either a plain string or a block array. -/
inductive ContentVal where
  | str (s : Str)
  | blocks (bs : List Block)
  deriving Repr, DecidableEq, Inhabited

/-- The nested `message` object of a record. -/
structure MsgBody where
  content : Option ContentVal
  model : Option Str
  usage : Option (List (Str × PVal))
  stop_reason : Option Str
  deriving Repr, DecidableEq, Inhabited

/-- The `toolUseResult` object of a JSONL user record. -/
structure ToolResult where
  toolName : Option Str
  result : Option Str
  toolUseId : Option Str
  durationMs : Option Nat
  url : Option Str
  isError : Option Bool
  deriving Repr, DecidableEq, Inhabited

/-- A decoded log line.  `raw` is the original line text (kept as
`raw_json`), `messageRepr` is the Python `str()` rendering of the raw
`message` value (data carried with the record, since the model does not
re-implement Python's repr; it is only used by the parser's fallback
branch for unrecognised record types). -/
structure RawRecord where
  type : Option Str
  session_id : Option Str
  timestampStr : Option Str
  timestampVal : Option Nat
  isSidechain : Bool
  userType : Option Str
  parentUuid : Option Str
  cwd : Option Str
  gitBranch : Option Str
  version : Option Str
  message : Option MsgBody
  messageRepr : Str
  toolUseResult : Option ToolResult
  subtype : Option Str
  model : Option Str
  tools : Option (List PVal)
  mcp_servers : Option (List PVal)
  apiKeySource : Option Str
  permissionMode : Option Str
  result : Option Str
  duration_ms : Option Nat
  duration_api_ms : Option Nat
  total_cost_usd : Option MVal
  num_turns : Option Nat
  is_error : Option Bool
  contentTop : Option ContentVal
  raw : Str
  deriving Repr, DecidableEq, Inhabited

/-- A record with every key absent (decode of `\x7b\x7d`). -/
def RawRecord.empty : RawRecord :=
  ⟨none, none, none, none, false, none, none, none, none, none, none, [],
   none, none, none, none, none, none, none, none, none, none, none, none,
   none, none, []⟩

/-- A Python value that may be `None`, as stored into a metadata dict. -/
def optS : Option Str → MVal
  | some s => .s s
  | none => .nil

/-- An optional number stored into a metadata dict. -/
def optN : Option Nat → MVal
  | some n => .n n
  | none => .nil

/-! ## Record Parser (`src/sync/message_parser.py`) -/

/-- `ParsedMessage` (dataclass in `message_parser.py`). -/
structure ParsedMessage where
  session_id : Str
  message_type : Str
  content : Str
  raw_json : Str
  message_metadata : Metadata
  timestamp : Nat
  is_sidechain : Bool
  sidechain_metadata : Metadata
  message_source : Str
  deriving Repr, DecidableEq, Inhabited

/-- `MessageParser._extract_timestamp`: use the record's ISO timestamp
when present and parseable, otherwise `datetime.utcnow()` (the `now`
parameter). -/
def extract_timestamp (r : RawRecord) (now : Nat) : Nat :=
  match r.timestampStr with
  | some ts => if ts.isEmpty then now else r.timestampVal.getD now
  | none => now

/-- The heuristic scan inside `_detect_sidechain_properties`: walk the
content items in order; the first `tool_use` block with a recognised name
decides the classification (the loop breaks there); unrecognised names
and non-`tool_use` items are passed over. -/
def detect_heuristic : List Block → Option (Str × Metadata)
  | [] => none
  | .toolUse name _ input :: rest =>
    if name.getD [] = pyStr "Task" then
      some (pyStr "task",
        [(pyStr "tool_name", .s (name.getD [])),
         (pyStr "tool_input", .dict input),
         (pyStr "detected_via", .s (pyStr "task_heuristic"))])
    else if name.getD [] = pyStr "TodoWrite" then
      some (pyStr "todo",
        [(pyStr "tool_name", .s (name.getD [])),
         (pyStr "tool_input", .dict input),
         (pyStr "detected_via", .s (pyStr "todo_heuristic"))])
    else if name.getD [] = pyStr "Agent" ∨ name.getD [] = pyStr "SubAgent" then
      some (pyStr "tool",
        [(pyStr "tool_name", .s (name.getD [])),
         (pyStr "tool_input", .dict input),
         (pyStr "detected_via", .s (pyStr "agent_heuristic"))])
    else detect_heuristic rest
  | _ :: rest => detect_heuristic rest

/-- `MessageParser._detect_sidechain_properties`. -/
def detect_sidechain_properties (r : RawRecord) :
    Bool × Metadata × Str :=
  let base :=
    if r.isSidechain then
      let meta :=
        [(pyStr "userType", optS r.userType),
         (pyStr "parentUuid", optS r.parentUuid),
         (pyStr "cwd", optS r.cwd),
         (pyStr "gitBranch", optS r.gitBranch),
         (pyStr "detected_via", .s (pyStr "explicit_flag"))]
      let user_type := r.userType.getD []
      let source :=
        if strContains (pyLower user_type) (pyStr "task") then pyStr "task"
        else if strContains (pyLower user_type) (pyStr "todo") then pyStr "todo"
        else pyStr "tool"
      (true, meta, source)
    else
      match r.message with
      | some mb =>
        match mb.content with
        | some (.blocks bs) =>
          match detect_heuristic bs with
          | some (source, meta) => (true, meta, source)
          | none => (false, [], pyStr "main")
        | _ => (false, [], pyStr "main")
      | none => (false, [], pyStr "main")
  match base with
  | (true, meta, source) =>
    -- common metadata added when a sidechain was detected
    (true,
     mupdate meta
       [(pyStr "session_id", optS r.session_id),
        (pyStr "cwd", optS r.cwd),
        (pyStr "version", optS r.version),
        (pyStr "timestamp", optS r.timestampStr)],
     source)
  | (false, meta, source) => (false, meta, source)

/-- The truncated tool-use id rendering
`item.get('id','')[:8] + '...' if item.get('id') else ''`. -/
def truncToolId (id : Option Str) : Str :=
  match id with
  | some s => if s.isEmpty then [] else s.take 8 ++ pyStr "..."
  | none => []

/-- The assistant-branch loop of `_extract_content`: text blocks are
stripped and kept when non-empty; each `tool_use` block renders as a
labelled summary; other items are skipped. -/
def assistant_parts : List Block → List Str
  | [] => []
  | .text t :: rest =>
    let s := pyStrip (t.getD [])
    if s.isEmpty then assistant_parts rest else s :: assistant_parts rest
  | .toolUse name id _ :: rest =>
    let tool_name := name.getD (pyStr "unknown")
    let tool_id := truncToolId id
    (pyStr "[Tool Use: " ++ tool_name ++ pyStr " (" ++ tool_id ++ pyStr ")]")
      :: assistant_parts rest
  | _ :: rest => assistant_parts rest

/-- The user-branch loop of `_extract_content`: the `text` field of every
`text` block, unstripped and unfiltered. -/
def user_text_parts : List Block → List Str
  | [] => []
  | .text t :: rest => t.getD [] :: user_text_parts rest
  | _ :: rest => user_text_parts rest

/-- A top-level `content` value returned as the message content
(system / fallback branches).  The repository's records carry only string
content there, so a block array (unseen in the data) renders empty. -/
def contentValAsStr : ContentVal → Str
  | .str s => s
  | .blocks _ => []

/-- `MessageParser._extract_content`. -/
def extract_content (r : RawRecord) (message_type : Str) : Str :=
  if message_type = pyStr "system" then
    let subtype := r.subtype.getD []
    if subtype = pyStr "init" then
      let model := r.model.getD (pyStr "unknown")
      let tools := (r.tools.getD []).length
      pyStr "Session initialized (model: " ++ model ++
        pyStr ", tools: " ++ natToStr tools ++ pyStr ")"
    else
      match r.contentTop with
      | some c => contentValAsStr c
      | none => pyStr "System message"
  else if message_type = pyStr "user" then
    match r.toolUseResult with
    | some tr =>
      let tool_name := tr.toolName.getD (pyStr "unknown")
      let result_text := tr.result.getD []
      pyStr "Tool Result (" ++ tool_name ++ pyStr "): " ++ result_text
    | none =>
      let raw_message := r.message.getD ⟨none, none, none, none⟩
      match raw_message.content.getD (.str []) with
      | .str s => s
      | .blocks bs =>
        let text_parts := user_text_parts bs
        if text_parts.isEmpty then [] else pyJoin (pyStr "\n") text_parts
  else if message_type = pyStr "assistant" then
    let raw_message := r.message.getD ⟨none, none, none, none⟩
    match raw_message.content.getD (.str []) with
    | .str s => s
    | .blocks bs =>
      let parts := assistant_parts bs
      if parts.isEmpty then [] else pyJoin (pyStr "\n") parts
  else if message_type = pyStr "result" then
    let result_content := r.result.getD []
    let subtype := r.subtype.getD (pyStr "success")
    let duration := r.duration_ms.getD 0
    pyStr "Result (" ++ subtype ++ pyStr "): " ++ result_content ++
      pyStr " (took " ++ natToStr duration ++ pyStr "ms)"
  else
    match r.contentTop with
    | some c => contentValAsStr c
    | none =>
      match r.message with
      | some _ => r.messageRepr
      | none => []

/-- `MessageParser._extract_metadata`: common keys, then type-specific
keys, then Python `None` values are removed. -/
def extract_metadata (r : RawRecord) (message_type : Str) : Metadata :=
  let metadata : Metadata :=
    (match r.cwd with
     | some c => [(pyStr "cwd", MVal.s c)]
     | none => []) ++
    (match r.version with
     | some v => [(pyStr "version", MVal.s v)]
     | none => []) ++
    (match r.gitBranch with
     | some g => [(pyStr "git_branch", MVal.s g)]
     | none => [])
  let metadata :=
    if message_type = pyStr "system" then
      mupdate metadata
        [(pyStr "subtype", optS r.subtype),
         (pyStr "model", optS r.model),
         (pyStr "tools", .lst (r.tools.getD [])),
         (pyStr "mcp_servers", .lst (r.mcp_servers.getD [])),
         (pyStr "api_key_source", optS r.apiKeySource),
         (pyStr "permission_mode", optS r.permissionMode)]
    else if message_type = pyStr "assistant" then
      let raw_message := r.message.getD ⟨none, none, none, none⟩
      mupdate metadata
        [(pyStr "model", optS raw_message.model),
         (pyStr "usage", .dict (raw_message.usage.getD [])),
         (pyStr "stop_reason", optS raw_message.stop_reason)]
    else if message_type = pyStr "user" ∧ r.toolUseResult.isSome then
      let tr := r.toolUseResult.getD ⟨none, none, none, none, none, none⟩
      mupdate metadata
        [(pyStr "tool_name", optS tr.toolName),
         (pyStr "tool_use_id", optS tr.toolUseId),
         (pyStr "duration_ms", optN tr.durationMs),
         (pyStr "url", optS tr.url),
         (pyStr "is_error", .b (tr.isError.getD false))]
    else if message_type = pyStr "result" then
      mupdate metadata
        [(pyStr "subtype", optS r.subtype),
         (pyStr "duration_ms", optN r.duration_ms),
         (pyStr "duration_api_ms", optN r.duration_api_ms),
         (pyStr "total_cost_usd", r.total_cost_usd.getD .nil),
         (pyStr "num_turns", optN r.num_turns),
         (pyStr "is_error", .b (r.is_error.getD false))]
    else metadata
  metadata.filter (fun p => p.2 ≠ MVal.nil)

/-- `MessageParser.parse_claude_message` on an already-decoded record.
`seq` is the parser's `message_sequence` after increment (the session
state manager constructs a fresh parser per message, so there it is
always 1); `now` is `datetime.utcnow()`.  The datetime re-serialisation
passes are the identity here because the model's metadata values are
already plain JSON values. -/
def parse_claude_message (seq : Nat) (r : RawRecord)
    (session_id_override : Option Str) (now : Nat) : ParsedMessage :=
  let message_type := r.type.getD []
  let session_id :=
    match session_id_override with
    | some s => if s.isEmpty then r.session_id.getD [] else s
    | none => r.session_id.getD []
  let timestamp := extract_timestamp r now
  let d := detect_sidechain_properties r
  let content := extract_content r message_type
  let message_metadata :=
    mset (extract_metadata r message_type) (pyStr "sequence") (.n seq)
  { session_id := session_id
    message_type := message_type
    content := content
    raw_json := r.raw
    message_metadata := message_metadata
    timestamp := timestamp
    is_sidechain := d.1
    sidechain_metadata := d.2.1
    message_source := d.2.2 }

/-! ## Content Extractor (`src/sync/content_extractor.py`) -/

/-- The `content` value the extractor works on:
`message_data['message']['content']` when that path exists, else the
top-level `content`, else `None`. -/
def resolve_content (r : RawRecord) : Option ContentVal :=
  match r.message with
  | some mb =>
    match mb.content with
    | some c => some c
    | none => r.contentTop
  | none => r.contentTop

/-- Python truthiness of a `content` value. -/
def contentTruthy : ContentVal → Bool
  | .str s => !s.isEmpty
  | .blocks bs => !bs.isEmpty

/-- `ContentExtractor.VERBOSE_TOOLS`. -/
def extractorVerboseTools : List Str :=
  [pyStr "LS", pyStr "Grep", pyStr "Glob", pyStr "find", pyStr "tree",
   pyStr "cat", pyStr "head", pyStr "tail"]

/-- Rendering of one tool parameter value inside
`ContentExtractor.extract_assistant_content`: strings above
`MAX_PARAM_LENGTH` are cut, containers render as their type name, other
values via `str()`. -/
def render_param_value (v : PVal) : Str :=
  match v with
  | .s s => if s.length > 50 then s.take 50 ++ pyStr "..." else s
  | .lstTag => pyStr "[list]"
  | .dictTag => pyStr "[dict]"
  | v => v.pyRepr

/-- The per-item loop of `extract_assistant_content`, split into the text
parts and the tool parts the code accumulates separately. -/
def extractor_text_parts : List Block → List Str
  | [] => []
  | .text t :: rest =>
    let text := pyStrip (t.getD [])
    if text.isEmpty then extractor_text_parts rest
    else
      let text := if text.length > 2000 then text.take 2000 ++ pyStr "..." else text
      text :: extractor_text_parts rest
  | _ :: rest => extractor_text_parts rest

/-- The tool-call summaries of `extract_assistant_content`. -/
def extractor_tool_parts : List Block → List Str
  | [] => []
  | .toolUse name id input :: rest =>
    let tool_name := name.getD (pyStr "unknown")
    let tool_id := truncToolId id
    let tool_desc :=
      pyStr "🔧 **Used " ++ tool_name ++ pyStr "** (`" ++ tool_id ++ pyStr "`)"
    let tool_desc :=
      if input.isEmpty then tool_desc
      else
        let key_params :=
          (input.take 2).map
            (fun p => p.1 ++ pyStr ": " ++ render_param_value p.2)
        if key_params.isEmpty then tool_desc
        else tool_desc ++ pyStr "\n  Parameters: " ++ pyJoin (pyStr ", ") key_params
    tool_desc :: extractor_tool_parts rest
  | _ :: rest => extractor_tool_parts rest

/-- `ContentExtractor.extract_assistant_content`. -/
def extract_assistant_content (r : RawRecord) : List Str :=
  match resolve_content r with
  | none => []
  | some content =>
    if !contentTruthy content then []
    else
      match content with
      | .blocks bs => extractor_text_parts bs ++ extractor_tool_parts bs
      | .str s => [s]

/-- The JSONL-format half of
`ContentExtractor.extract_tool_result_content`. -/
def extract_tool_result_jsonl (r : RawRecord) : List Str :=
  match r.toolUseResult with
  | none => []
  | some tr =>
    let result_text := tr.result.getD []
    let tool_name := tr.toolName.getD []
    if result_text.isEmpty then []
    else
      let verbose := extractorVerboseTools.contains tool_name
      let max_length := if verbose then 200 else 500
      let result_text :=
        if result_text.length > max_length then
          if verbose then
            let lines := pySplit '\n' result_text
            let summary :=
              pyStr "[" ++ tool_name ++ pyStr " output: " ++
                natToStr lines.length ++ pyStr " lines, " ++
                natToStr result_text.length ++ pyStr " chars]"
            summary ++ pyStr "\n" ++ (lines.headD []) ++ pyStr "...\n[truncated]"
          else
            result_text.take max_length ++ pyStr "\n[... truncated ...]"
        else result_text
      let result_part :=
        pyStr "📋 **Tool Result:**\n```\n" ++ result_text ++ pyStr "\n```"
      let result_part :=
        match tr.url with
        | some u => result_part ++ pyStr "\n*Source: " ++ u ++ pyStr "*"
        | none => result_part
      let result_part :=
        match tr.durationMs with
        | some d => result_part ++ pyStr " *(" ++ natToStr d ++ pyStr "ms)*"
        | none => result_part
      [result_part]

/-- The streaming-format half of `extract_tool_result_content`:
`tool_result` blocks found in the resolved content list. -/
def extract_tool_result_blocks : List Block → List Str
  | [] => []
  | .toolResult c :: rest =>
    let result_content := c.getD []
    if result_content.isEmpty then extract_tool_result_blocks rest
    else
      let result_content :=
        if result_content.length > 500 then
          result_content.take 500 ++ pyStr "\n[... truncated ...]"
        else result_content
      (pyStr "📋 **Tool Result:**\n```\n" ++ result_content ++ pyStr "\n```")
        :: extract_tool_result_blocks rest
  | _ :: rest => extract_tool_result_blocks rest

/-- `ContentExtractor.extract_tool_result_content`. -/
def extract_tool_result_content (r : RawRecord) : List Str :=
  extract_tool_result_jsonl r ++
    (match resolve_content r with
     | some (.blocks bs) => extract_tool_result_blocks bs
     | _ => [])

/-- Stripped, non-empty text blocks (the regular-user and fallback loops
of `extract_message_content`). -/
def stripped_text_parts : List Block → List Str
  | [] => []
  | .text t :: rest =>
    let text := pyStrip (t.getD [])
    if text.isEmpty then stripped_text_parts rest
    else text :: stripped_text_parts rest
  | _ :: rest => stripped_text_parts rest

/-- `ContentExtractor.extract_message_content`. -/
def extract_message_content (r : RawRecord) : Str :=
  let msg_type := r.type.getD []
  let content_parts :=
    if msg_type = pyStr "assistant" then
      extract_assistant_content r
    else if msg_type = pyStr "user" then
      let tool_results := extract_tool_result_content r
      if !tool_results.isEmpty then tool_results
      else
        match resolve_content r with
        | some (.str s) => [s]
        | some (.blocks bs) => stripped_text_parts bs
        | none => []
    else
      match r.contentTop.getD (.str []) with
      | .str s => [s]
      | .blocks bs => stripped_text_parts bs
  if content_parts.isEmpty then [] else pyJoin (pyStr "\n") content_parts

/-! ## Content Truncator (`src/sync/content_truncator.py`) -/

/-- `ContentTruncator.VERBOSE_TOOLS`. -/
def truncatorVerboseTools : List Str :=
  [pyStr "LS", pyStr "Grep", pyStr "Glob", pyStr "find", pyStr "tree",
   pyStr "cat", pyStr "head", pyStr "tail", pyStr "Read", pyStr "Bash",
   pyStr "git", pyStr "npm", pyStr "pip", pyStr "docker"]

/-- The `tool_name` metadata entry as the string the truncator works
with (`metadata.get('tool_name', '')`; a non-string value, unseen in the
repository's data, would fail the verbose-set test just as here). -/
def metaToolName (m : Metadata) : Str :=
  match mget m (pyStr "tool_name") with
  | some (.s s) => s
  | _ => []

/-- `ContentTruncator._is_tool_result`. -/
def is_tool_result (pm : ParsedMessage) : Bool :=
  pm.message_type = pyStr "user" &&
    ((mget pm.message_metadata (pyStr "tool_name")).isSome ||
      strContains pm.content (pyStr "Tool Result"))

/-- `ContentTruncator._get_content_limit`. -/
def get_content_limit (pm : ParsedMessage) : Nat :=
  if pm.message_type = pyStr "system" then 500
  else if ((mget pm.message_metadata (pyStr "is_error")).getD .nil).truthy
      || strContains (pyLower pm.content) (pyStr "error") then 3000
  else if pm.is_sidechain then
    if pm.message_source = pyStr "task" then 1500
    else if pm.message_source = pyStr "todo" then 800
    else 1000  -- DEFAULT_CONTENT_LIMIT // 2
  else if pm.message_type = pyStr "user" && is_tool_result pm then
    if truncatorVerboseTools.contains (metaToolName pm.message_metadata) then 500
    else 1000
  else 2000

/-- `ContentTruncator._truncate_text_content`.  The float comparison
`last_space > limit * 0.8` is modelled exactly by `5 * last_space >
4 * limit`: for every limit the code can produce (500 … 3000) the IEEE
product `limit * 0.8` lies strictly between `4 * limit / 5` and
`4 * limit / 5 + 1`, so the two tests agree on integers. -/
def truncate_text_content (content : Str) (limit : Nat) : Str :=
  if content.length ≤ limit then content
  else
    let truncated := content.take (limit - 3)
    let last_space := pyRfind truncated ' '
    if last_space * 5 > (limit : Int) * 4 then
      content.take last_space.toNat ++ pyStr "..."
    else
      content.take (limit - 3) ++ pyStr "..."

/-- `ContentTruncator._is_structured_content`. -/
def is_structured_content (content : Str) : Bool :=
  let stripped := pyStrip content
  (match stripped with
   | c :: _ => c = '\x7b' || c = '[' || c = '<'
   | [] => false) ||
  (pyStr "```").isPrefixOf stripped || (pyStr "~~~").isPrefixOf stripped ||
  strContains content (pyStr "\n    ") ||
  (content.filter (· = '\n')).length > 10

/-- `ContentTruncator._truncate_structured_content`.  Subtractions are
on `Nat`; the only place Python could go negative (`limit` below the
marker length) lands in the same `available_space < 100` fallback. -/
def truncate_structured_content (content : Str) (limit : Nat) : Str :=
  if content.length ≤ limit then content
  else
    let truncation_marker := pyStr "\n[... content truncated ...]\n"
    let available_space := limit - truncation_marker.length
    if available_space < 100 then
      content.take (limit - 3) ++ pyStr "..."
    else
      let beginning_space := available_space * 2 / 3
      let ending_space := available_space - beginning_space
      let beginning := pyRstrip (content.take beginning_space)
      let ending := pyLstrip (pyTakeLast ending_space content)
      beginning ++ truncation_marker ++ ending

/-- The preview-accumulation loop of `_truncate_tool_result`. -/
def preview_fit (lines : List Str) (remaining cur : Nat) : List Str :=
  match lines with
  | [] => []
  | l :: ls =>
    if cur + l.length + 1 ≤ remaining then
      l :: preview_fit ls remaining (cur + l.length + 1)
    else []

/-- `ContentTruncator._truncate_tool_result`. -/
def truncate_tool_result (content : Str) (limit : Nat)
    (pm : ParsedMessage) : Str :=
  let tool_name := metaToolName pm.message_metadata
  if truncatorVerboseTools.contains tool_name then
    let lines := pySplit '\n' content
    let char_count := content.length
    let summary :=
      pyStr "[" ++ tool_name ++ pyStr " output: " ++ natToStr lines.length ++
        pyStr " lines, " ++ natToStr char_count ++ pyStr " chars]"
    let remaining_space := limit - summary.length - 20
    if remaining_space > 50 then
      let preview_lines := preview_fit lines remaining_space 0
      if !preview_lines.isEmpty then
        let preview := pyJoin (pyStr "\n") preview_lines
        summary ++ pyStr "\n" ++ preview ++ pyStr "\n[... output truncated ...]"
      else summary
    else summary
  else truncate_text_content content limit

/-- `ContentTruncator._apply_truncation`. -/
def apply_truncation (content : Str) (limit : Nat)
    (pm : ParsedMessage) : Str :=
  if content.length ≤ limit then content
  else if is_tool_result pm then truncate_tool_result content limit pm
  else if is_structured_content content then
    truncate_structured_content content limit
  else truncate_text_content content limit

/-- `ContentTruncator._get_truncation_reason`. -/
def get_truncation_reason (pm : ParsedMessage) : Str :=
  if pm.message_type = pyStr "system" then pyStr "system_message_limit"
  else if pm.is_sidechain then
    pyStr "sidechain_" ++ pm.message_source ++ pyStr "_limit"
  else if is_tool_result pm then
    let tool_name :=
      match mget pm.message_metadata (pyStr "tool_name") with
      | some (.s s) => s
      | some _ => []
      | none => pyStr "unknown"
    if truncatorVerboseTools.contains tool_name then
      pyStr "verbose_tool_" ++ tool_name ++ pyStr "_limit"
    else pyStr "tool_result_limit"
  else if strContains (pyLower pm.content) (pyStr "error") then
    pyStr "error_message_limit"
  else pyStr "default_content_limit"

/-- `ContentTruncator.truncate_message` (the in-place mutation is
returned as an updated record). -/
def truncate_message (pm : ParsedMessage) : ParsedMessage :=
  let original_length := pm.content.length
  let content_limit := get_content_limit pm
  if original_length ≤ content_limit then pm
  else
    let truncated_content := apply_truncation pm.content content_limit pm
    { pm with
      content := truncated_content
      message_metadata :=
        mupdate pm.message_metadata
          [(pyStr "original_length", .n original_length),
           (pyStr "truncated_length", .n truncated_content.length),
           (pyStr "truncation_applied", .b true),
           (pyStr "truncation_reason", .s (get_truncation_reason pm))] }

/-! ## Persistence Coordinator (`src/sync/persistence_coordinator.py`)

The mirror store is the pair of tables the coordinator writes (rich
schema: the fields set by `_create_validated_message` and
`_ensure_chat_exists`, with `chat.session_id` unique per the
`add_session_id` migration).  `session.add` appends a row, `flush`
assigns the next id, and a session that is closed without `commit` rolls
the store back while Python-side caches keep their mutations. -/

/-- A `chat` row as created by `_ensure_chat_exists`. -/
structure ChatDao where
  id : Nat
  title : Str
  session_id : Str
  model : Str
  started_at : Nat
  deriving Repr, DecidableEq, Inhabited

/-- A `message` row as created by `_create_validated_message`. -/
structure MessageDao where
  id : Nat
  chat_id : Nat
  message_type : Str
  content : Str
  raw_json : Str
  message_metadata : Metadata
  timestamp : Nat
  is_sidechain : Bool
  sidechain_metadata : Metadata
  message_source : Str
  role : Str
  model : MVal
  deriving Repr, DecidableEq, Inhabited

/-- The mirror store. -/
structure Store where
  chats : List ChatDao
  messages : List MessageDao
  next_chat_id : Nat
  next_message_id : Nat
  deriving Repr, DecidableEq, Inhabited

/-- The coordinator's state: the store plus the in-process
`chat_cache` (which SQL rollbacks do not undo). -/
structure PCState where
  store : Store
  chat_cache : List (Str × ChatDao)
  deriving Repr, DecidableEq, Inhabited

/-- A fresh coordinator over an empty mirror. -/
def PCState.empty : PCState := ⟨⟨[], [], 1, 1⟩, []⟩

/-- `chat_cache` lookup. -/
def cacheGet (cache : List (Str × ChatDao)) (sid : Str) : Option ChatDao :=
  (cache.find? (fun p => p.1 = sid)).map (·.2)

/-- `PersistenceCoordinator._generate_chat_title`. -/
def generate_chat_title (pm : ParsedMessage) : Str :=
  let content := pyStrip pm.content
  let fallback :=
    pyStr "Claude Code Session (" ++ pm.session_id.take 8 ++ pyStr ")"
  if content.isEmpty || pm.message_type = pyStr "system" then fallback
  else
    let title := pyStrip (content.map (fun c => if c = '\n' then ' ' else c))
    let title := if title.length > 100 then title.take 97 ++ pyStr "..." else title
    if title.isEmpty then fallback else title

/-- `PersistenceCoordinator._ensure_chat_exists`.  The `.error` outcome
is SQLAlchemy's `MultipleResultsFound` from `scalar_one_or_none` (only
possible if the store already held duplicate chats for the session); it
carries the state at the raise because the exception escapes past the
cache. -/
def ensure_chat_exists (st : PCState) (pm : ParsedMessage) :
    Except PCState (Option ChatDao × PCState) :=
  let sid := pm.session_id
  match cacheGet st.chat_cache sid with
  | some c => .ok (some c, st)
  | none =>
    match st.store.chats.filter (fun c => c.session_id = sid) with
    | [c] => .ok (some c, { st with chat_cache := st.chat_cache ++ [(sid, c)] })
    | [] =>
      -- create a new chat row; the construction cannot fail in the model,
      -- so the surrounding try/except's failure branch is unreachable
      let c : ChatDao :=
        { id := st.store.next_chat_id
          title := generate_chat_title pm
          session_id := sid
          model := pyStr "claude-code"
          started_at := pm.timestamp }
      .ok (some c,
        { store :=
            { st.store with
              chats := st.store.chats ++ [c]
              next_chat_id := st.store.next_chat_id + 1 }
          chat_cache := st.chat_cache ++ [(sid, c)] })
    | _ => .error st

/-- The duplicate-detection key comparison of
`_check_duplicate_message`: type + timestamp for system/result rows,
type + content for the rest. -/
def dup_matches (pm : ParsedMessage) (chat_id : Nat) (m : MessageDao) : Bool :=
  if pm.message_type = pyStr "system" ∨ pm.message_type = pyStr "result" then
    m.chat_id = chat_id && m.message_type = pm.message_type &&
      m.timestamp = pm.timestamp
  else
    m.chat_id = chat_id && m.content = pm.content &&
      m.message_type = pm.message_type

/-- `PersistenceCoordinator._check_duplicate_message`
(`scalar_one_or_none`: `none` for no match, the row for exactly one,
`MultipleResultsFound` otherwise). -/
def check_duplicate_message (store : Store) (pm : ParsedMessage)
    (chat_id : Nat) : Except Unit (Option MessageDao) :=
  match store.messages.filter (dup_matches pm chat_id) with
  | [] => .ok none
  | [m] => .ok (some m)
  | _ => .error ()

/-- The condition under which `_create_validated_message` logs its
"Message has empty content" warning (the claims about flagging
empty-content records refer to this logger call). -/
def empty_content_warning (pm : ParsedMessage) : Bool :=
  pm.content.isEmpty && !(pm.message_type = pyStr "system")

/-- `PersistenceCoordinator._create_validated_message`.  The metadata
datetime re-serialisation and the `json.dumps` validation are the
identity / always succeed on the model's JSON values, so the
metadata-clearing branch is unreachable; the only failure is a missing
session id. -/
def create_validated_message (store : Store) (pm : ParsedMessage)
    (chat_id : Nat) : Option MessageDao × Store :=
  if pm.session_id.isEmpty then (none, store)
  else
    let dao : MessageDao :=
      { id := store.next_message_id
        chat_id := chat_id
        message_type := pm.message_type
        content := pm.content
        raw_json := pm.raw_json
        message_metadata := pm.message_metadata
        timestamp := pm.timestamp
        is_sidechain := pm.is_sidechain
        sidechain_metadata := pm.sidechain_metadata
        message_source := pm.message_source
        role := pm.message_type
        model := (mget pm.message_metadata (pyStr "model")).getD
          (.s (pyStr "claude-code")) }
    (some dao,
     { store with
       messages := store.messages ++ [dao]
       next_message_id := store.next_message_id + 1 })

/-- `PersistenceCoordinator._persist_message_in_session`. -/
def persist_message_in_session (st : PCState) (pm : ParsedMessage)
    (chat_dao : Option ChatDao) :
    Except PCState (Option MessageDao × PCState) :=
  match
    (match chat_dao with
     | some c => Except.ok (some c, st)
     | none => ensure_chat_exists st pm) with
  | .error st₁ => .error st₁
  | .ok (none, st₁) => .ok (none, st₁)
  | .ok (some chat, st₁) =>
    match check_duplicate_message st₁.store pm chat.id with
    | .error () => .error st₁
    | .ok (some existing) => .ok (some existing, st₁)
    | .ok none =>
      let r := create_validated_message st₁.store pm chat.id
      .ok (r.1, { st₁ with store := r.2 })

/-- `PersistenceCoordinator.persist_message` without an externally
provided session: run `_persist_message_in_session` in a fresh session
and commit only when a message came back; otherwise (including a raised
exception, which the method catches) the session closes uncommitted and
the store rolls back, while the chat cache keeps its mutations. -/
def persist_message (st : PCState) (pm : ParsedMessage)
    (chat_dao : Option ChatDao) : Option MessageDao × PCState :=
  match persist_message_in_session st pm chat_dao with
  | .ok (some dao, st') => (some dao, st')
  | .ok (none, st') => (none, ⟨st.store, st'.chat_cache⟩)
  | .error st' => (none, ⟨st.store, st'.chat_cache⟩)

/-! ## Incremental Sync Engine (`src/sync/incremental_sync.py`) -/

/-- A `message` row of the minimal elia schema written by
`IncrementalSyncEngine._process_messages`. -/
structure SimpleRow where
  content : Str
  role : Str
  idx : Nat
  deriving Repr, DecidableEq, Inhabited

/-- The enumerated loop of `_process_messages`: extract content, skip
the record when the extracted content is empty, otherwise store a row at
`message_offset + idx`. -/
def process_messages_from (message_offset idx : Nat) :
    List RawRecord → List SimpleRow
  | [] => []
  | m :: rest =>
    let content := extract_message_content m
    if content.isEmpty then process_messages_from message_offset (idx + 1) rest
    else
      let msg_type := m.type.getD (pyStr "unknown")
      let role :=
        if msg_type = pyStr "assistant" then pyStr "assistant" else pyStr "user"
      ⟨content, role, message_offset + idx⟩
        :: process_messages_from message_offset (idx + 1) rest

/-- `IncrementalSyncEngine._process_messages`, with the chat's existing
row count passed in (in the source it is read from the store). -/
def process_messages (message_offset : Nat) (msgs : List RawRecord) :
    List SimpleRow :=
  process_messages_from message_offset 0 msgs

/-- The persisted `sync_positions` map (session id → byte offset). -/
abbrev SyncPositions := List (Str × Nat)

/-- `self.sync_positions.get(session_id, 0)`. -/
def posGet (ps : SyncPositions) (sid : Str) : Nat :=
  ((ps.find? (fun p => p.1 = sid)).map (·.2)).getD 0

/-- `self.sync_positions[session_id] = pos`. -/
def posSet (ps : SyncPositions) (sid : Str) (pos : Nat) : SyncPositions :=
  match ps with
  | [] => [(sid, pos)]
  | (k, v) :: rest =>
    if k = sid then (sid, pos) :: rest else (k, v) :: posSet rest sid pos

/-- `IncrementalSyncEngine.reset_position`. -/
def reset_position (ps : SyncPositions) (sid : Str) : SyncPositions :=
  ps.filter (fun p => ¬ p.1 = sid)

/-- The externally observable steps of one sync tick, in program order:
`_save_sync_positions` writing an advanced checkpoint, and the hand-off
of the decoded records to persistence (`_process_messages`). -/
inductive SyncEvent where
  | checkpointSaved (sid : Str) (pos : Nat)
  | persistHandoff (sid : Str) (count : Nat)
  deriving Repr, DecidableEq, Inhabited

/-- Result of one `sync_new_messages` tick. -/
structure SyncResult where
  count : Nat
  positions : SyncPositions
  trace : List SyncEvent
  rows : List SimpleRow
  deriving Repr, DecidableEq, Inhabited

/-- The new-byte window of a tick: seek to the stored offset, read the
rest of the file, split into lines, strip each, skip blanks, decode each
(`json.loads`; a decode failure is logged and skipped). -/
def decoded_window (dec : Str → Option RawRecord)
    (positions : SyncPositions) (session_id : Str) (f : Str) :
    List RawRecord :=
  let last_position := posGet positions session_id
  let window := f.drop last_position
  (pySplit '\n' window).filterMap fun l =>
    let l' := pyStrip l
    if l'.isEmpty then none else dec l'

/-- `IncrementalSyncEngine.sync_new_messages`.  `dec` models
`json.loads`; `file` is the current content of the JSONL file (`none` =
missing); `existing_count` is the chat's current row count read inside
`_process_messages`.  After reading to end of file, `f.tell()` is the
file size.  The trace records program order: the checkpoint is stored
and saved inside the read block, before `_process_messages` runs. -/
def sync_new_messages (dec : Str → Option RawRecord)
    (positions : SyncPositions) (session_id : Str) (file : Option Str)
    (existing_count : Nat) : SyncResult :=
  match file with
  | none => ⟨0, positions, [], []⟩
  | some f =>
    let last_position := posGet positions session_id
    let current_size := f.length
    if current_size ≤ last_position then ⟨0, positions, [], []⟩
    else
      let new_messages := decoded_window dec positions session_id f
      let new_position := current_size
      let positions' := posSet positions session_id new_position
      let trace := [SyncEvent.checkpointSaved session_id new_position]
      if new_messages.isEmpty then ⟨0, positions', trace, []⟩
      else
        ⟨new_messages.length, positions',
         trace ++ [SyncEvent.persistHandoff session_id new_messages.length],
         process_messages existing_count new_messages⟩

/-! ## Session State Manager (`src/sync/session_state_manager.py`) -/

/-- An event listener, abstracted to whether its invocation raises. -/
structure Handler where
  id : Nat
  raises : Bool
  deriving Repr, DecidableEq, Inhabited

/-- The bare `for handler in ...: handler(event)` loop of
`_emit_event`: returns the handlers actually invoked (in order) and
whether an exception flew out of the loop. -/
def run_handlers : List Handler → List Nat × Bool
  | [] => ([], false)
  | h :: rest =>
    if h.raises then ([h.id], true)
    else
      let r := run_handlers rest
      (h.id :: r.1, r.2)

/-- `SessionStateManager._emit_event`: the loop over
`event_handlers.get(event.event_type, [])` runs inside one try/except,
so a raised exception is caught (and logged) rather than propagated —
but it has already terminated the loop. -/
def emit_event (event_handlers : List (Str × List Handler))
    (event_type : Str) : List Nat × Bool :=
  let hs :=
    ((event_handlers.find? (fun p => p.1 = event_type)).map (·.2)).getD []
  ((run_handlers hs).1, false)

/-- One `SessionStateManager.process_new_message` step restricted to its
data path: parse the record with a fresh `MessageParser` (so the
sequence number is 1) under the session-id override, then persist it
(the manager passes its registration-time `chat_dao`, which is `none`
for a session that was not yet in the mirror). -/
def process_new_record (sid : Str) (st : PCState) (r : RawRecord)
    (now : Nat) : PCState :=
  (persist_message st (parse_claude_message 1 r (some sid) now) none).2

/-- Replaying a list of decoded source lines through the
parse-then-persist path, one tick of the wall clock per message. -/
def replay_lines (st : PCState) (sid : Str) :
    List RawRecord → Nat → PCState
  | [], _ => st
  | r :: rest, clock =>
    replay_lines (process_new_record sid st r clock) sid rest (clock + 1)

/-- The mirror's message row count. -/
def message_count (st : PCState) : Nat := st.store.messages.length

/-! ## Statement-side helpers -/

/-- A sequence of sync ticks for one session over successive snapshots
of its file, recording the positions map after each tick (the positions
are independent of the decoder's results and of the existing row
count). -/
def run_ticks (dec : Str → Option RawRecord) (sid : Str)
    (st : SyncPositions) : List Str → List SyncPositions
  | [] => []
  | f :: fs =>
    let st' := (sync_new_messages dec st sid (some f) 0).positions
    st' :: run_ticks dec sid st' fs

/-- The ordering property claimed for a tick's trace: every
checkpoint-save is preceded by a persistence hand-off. -/
def checkpoint_only_after_handoff : List SyncEvent → Bool → Bool
  | [], _ => true
  | .persistHandoff _ _ :: rest, _ => checkpoint_only_after_handoff rest true
  | .checkpointSaved _ _ :: rest, seen =>
    seen && checkpoint_only_after_handoff rest seen

/-- Whether a block is a `tool_use` invocation of one of the names the
side-task heuristic recognises. -/
def recognized_tool (b : Block) : Bool :=
  match b with
  | .toolUse name _ _ =>
    decide (name.getD [] = pyStr "Task") ||
    decide (name.getD [] = pyStr "TodoWrite") ||
    decide (name.getD [] = pyStr "Agent") ||
    decide (name.getD [] = pyStr "SubAgent")
  | _ => false

/-- A record whose parse is independent of the wall clock where the
duplicate-detection key needs it: a system/result record must carry a
non-empty, parseable timestamp. -/
def clock_independent_ts (r : RawRecord) : Prop :=
  (r.type.getD [] = pyStr "system" ∨ r.type.getD [] = pyStr "result") →
    r.timestampVal.isSome = true ∧ r.timestampStr.isSome = true ∧
      (r.timestampStr.getD []).isEmpty = false

instance (r : RawRecord) : Decidable (clock_independent_ts r) :=
  inferInstanceAs (Decidable
    ((r.type.getD [] = pyStr "system" ∨ r.type.getD [] = pyStr "result") →
      r.timestampVal.isSome = true ∧ r.timestampStr.isSome = true ∧
        (r.timestampStr.getD []).isEmpty = false))

/-! ## Concrete records used by witnesses and counterexamples -/

/-- A decoder recognising the single line `x` (stands for `json.loads`
on a file whose only line is a result record). -/
def decSimple : Str → Option RawRecord := fun l =>
  if l = pyStr "x" then
    some { RawRecord.empty with
           type := some (pyStr "result"), result := some (pyStr "done"),
           timestampStr := some (pyStr "2025-01-01T00:00:00Z"),
           timestampVal := some 42, raw := pyStr "x" }
  else none

/-- 501 characters of `LS` output: 251 one-character lines. -/
def cexContent : Str := (List.replicate 250 (pyStr "a\n")).flatten ++ pyStr "a"

/-- A parsed `LS` tool-result one character over its 500-character cap. -/
def cexPm : ParsedMessage :=
  { session_id := pyStr "s", message_type := pyStr "user",
    content := cexContent, raw_json := [],
    message_metadata := [(pyStr "tool_name", .s (pyStr "LS"))],
    timestamp := 0, is_sidechain := false, sidechain_metadata := [],
    message_source := pyStr "main" }

/-- A plain system message one character over its 500-character cap. -/
def plainPm : ParsedMessage :=
  { session_id := pyStr "s", message_type := pyStr "system",
    content := List.replicate 501 'a', raw_json := [],
    message_metadata := [], timestamp := 0, is_sidechain := false,
    sidechain_metadata := [], message_source := pyStr "main" }

/-- A system message exactly at its 500-character cap (for the
untouched half of the truncation-boundary claim). -/
def shortPm : ParsedMessage :=
  { session_id := pyStr "s", message_type := pyStr "system",
    content := List.replicate 500 'a', raw_json := [],
    message_metadata := [], timestamp := 0, is_sidechain := false,
    sidechain_metadata := [], message_source := pyStr "main" }

/-- The content blocks of an assistant record whose only content is one
`Bash` tool call. -/
def bashBlocks : List Block :=
  [.toolUse (some (pyStr "Bash")) (some (pyStr "toolu_ABCDEFGH"))
     [(pyStr "command", .s (pyStr "ls"))]]

/-- An assistant record whose only content is one `Bash` tool call. -/
def bashRec : RawRecord :=
  { RawRecord.empty with
    type := some (pyStr "assistant"),
    message := some ⟨some (.blocks bashBlocks), none, none, none⟩ }

/-- Content with a single `Task` tool call. -/
def taskBlocks : List Block := [.toolUse (some (pyStr "Task")) none []]

/-- Content with a single `TodoWrite` tool call. -/
def todoBlocks : List Block := [.toolUse (some (pyStr "TodoWrite")) none []]

/-- Text-only assistant content. -/
def textBlocks : List Block := [.text (some (pyStr "hello"))]

/-- An assistant record invoking the `Task` tool, no explicit flag. -/
def taskRec : RawRecord :=
  { RawRecord.empty with
    type := some (pyStr "assistant"),
    message := some ⟨some (.blocks taskBlocks), none, none, none⟩ }

/-- An assistant record invoking the `TodoWrite` tool, no explicit flag. -/
def todoRec : RawRecord :=
  { RawRecord.empty with
    type := some (pyStr "assistant"),
    message := some ⟨some (.blocks todoBlocks), none, none, none⟩ }

/-- A text-only assistant record, no explicit flag. -/
def textRec : RawRecord :=
  { RawRecord.empty with
    type := some (pyStr "assistant"),
    message := some ⟨some (.blocks textBlocks), none, none, none⟩ }

/-- A result record with no timestamp field (as in the live stream's
terminal records): its parse is stamped with the wall clock. -/
def resRecNoTs : RawRecord :=
  { RawRecord.empty with
    type := some (pyStr "result"), result := some (pyStr "done") }

/-- The same result record carrying a parseable timestamp. -/
def resRecTs : RawRecord :=
  { resRecNoTs with
    timestampStr := some (pyStr "2025-01-01T00:00:00Z"),
    timestampVal := some 42 }

/-- A user record whose extracted content is empty. -/
def emptyUserRec : RawRecord :=
  { RawRecord.empty with
    type := some (pyStr "user"),
    message := some ⟨some (.str []), none, none, none⟩ }

/-- A parsed user message with empty content (for the flag-not-drop
claim about the validated persistence path). -/
def emptyPm : ParsedMessage :=
  { session_id := pyStr "s", message_type := pyStr "user",
    content := [], raw_json := pyStr "r", message_metadata := [],
    timestamp := 0, is_sidechain := false, sidechain_metadata := [],
    message_source := pyStr "main" }

/-- A mirror holding one conversation with one user message, for the
duplicate-persist frame claim. -/
def c10Chat : ChatDao :=
  ⟨1, pyStr "hi", pyStr "s", pyStr "claude-code", 5⟩

/-- The stored message of the `c10` scenario. -/
def c10Msg : MessageDao :=
  ⟨1, 1, pyStr "user", pyStr "hi", pyStr "raw", [], 5, false, [],
   pyStr "main", pyStr "user", .s (pyStr "claude-code")⟩

/-- The coordinator state of the `c10` scenario (cache warm). -/
def c10State : PCState :=
  ⟨⟨[c10Chat], [c10Msg], 2, 2⟩, [(pyStr "s", c10Chat)]⟩

/-- A parsed message whose duplicate key matches `c10Msg`. -/
def c10Pm : ParsedMessage :=
  { session_id := pyStr "s", message_type := pyStr "user",
    content := pyStr "hi", raw_json := pyStr "raw2",
    message_metadata := [(pyStr "sequence", .n 1)], timestamp := 9,
    is_sidechain := false, sidechain_metadata := [],
    message_source := pyStr "main" }

/-! # Theorems -/

/-! ## Sync-engine offset behaviour (C1, C3, C4) -/

theorem posGet_posSet (ps : SyncPositions) (sid : Str) (v : Nat) :
    posGet (posSet ps sid v) sid = v := by
  induction ps with
  | nil => simp [posGet, posSet, List.find?]
  | cons p rest ih =>
    obtain ⟨k, w⟩ := p
    by_cases h : k = sid
    · subst h; simp [posSet, posGet, List.find?]
    · simpa [posSet, posGet, h, List.find?] using ih

theorem sync_new_messages_some (dec : Str → Option RawRecord)
    (st : SyncPositions) (sid : Str) (f : Str) (ec : Nat) :
    sync_new_messages dec st sid (some f) ec =
      if f.length ≤ posGet st sid then ⟨0, st, [], []⟩
      else if (decoded_window dec st sid f).isEmpty then
        ⟨0, posSet st sid f.length,
         [SyncEvent.checkpointSaved sid f.length], []⟩
      else
        ⟨(decoded_window dec st sid f).length, posSet st sid f.length,
         [SyncEvent.checkpointSaved sid f.length,
          SyncEvent.persistHandoff sid (decoded_window dec st sid f).length],
         process_messages ec (decoded_window dec st sid f)⟩ := rfl

theorem tick_posGet (dec : Str → Option RawRecord) (st : SyncPositions)
    (sid : Str) (f : Str) (ec : Nat) (h : posGet st sid ≤ f.length) :
    posGet (sync_new_messages dec st sid (some f) ec).positions sid
      = f.length := by
  rw [sync_new_messages_some]
  by_cases hle : f.length ≤ posGet st sid
  · rw [if_pos hle]
    exact le_antisymm h hle
  · rw [if_neg hle]
    split
    · simpa using posGet_posSet st sid f.length
    · simpa using posGet_posSet st sid f.length

/-- C3 counterexample: with stored offset 10 and a 2-byte file
(truncation), the tick leaves the offset at 10 — it is not reset to 0
and no resync is triggered (the trace is empty, the tick returns 0). -/
theorem C3_counterexample :
    (pyStr "ab").length < posGet [(pyStr "s", 10)] (pyStr "s") ∧
    (sync_new_messages decSimple [(pyStr "s", 10)] (pyStr "s")
        (some (pyStr "ab")) 0).count = 0 ∧
    posGet (sync_new_messages decSimple [(pyStr "s", 10)] (pyStr "s")
        (some (pyStr "ab")) 0).positions (pyStr "s") = 10 ∧
    ¬ posGet (sync_new_messages decSimple [(pyStr "s", 10)] (pyStr "s")
        (some (pyStr "ab")) 0).positions (pyStr "s") = 0 := by
  decide

/-- C3 (amended): when the file's size has fallen strictly below the
stored offset (truncation/rotation), the tick is a complete no-op: it
returns 0 and leaves the positions map unchanged — the offset is not
reset to 0 and nothing is marked for resync (only the separate manual
`reset_position` operation clears an offset). -/
theorem C3_truncation_tick_noop (dec : Str → Option RawRecord)
    (st : SyncPositions) (sid : Str) (f : Str) (ec : Nat)
    (h : f.length < posGet st sid) :
    sync_new_messages dec st sid (some f) ec = ⟨0, st, [], []⟩ := by
  rw [sync_new_messages_some, if_pos (Nat.le_of_lt h)]

theorem C3_truncation_tick_noop_witness :
    (pyStr "ab").length < posGet [(pyStr "s", 10)] (pyStr "s") ∧
    sync_new_messages decSimple [(pyStr "s", 10)] (pyStr "s")
        (some (pyStr "ab")) 0 = ⟨0, [(pyStr "s", 10)], [], []⟩ :=
  ⟨by decide, C3_truncation_tick_noop decSimple [(pyStr "s", 10)]
    (pyStr "s") (pyStr "ab") 0 (by decide)⟩

/-- C4: over any sequence of ticks in which the file only receives
appends (each snapshot is a prefix of the next) and whose starting
offset does not exceed the first snapshot (true in particular on a cold
start), the recorded offset after each tick equals that tick's file
size, and the sequence of recorded offsets is non-decreasing. -/
theorem C4_offset_monotone_tracks_size (dec : Str → Option RawRecord)
    (sid : Str) (st : SyncPositions) (files : List Str)
    (h0 : files = [] ∨ posGet st sid ≤ (files.headD []).length)
    (happ : List.Chain' (fun a b : Str => a <+: b) files) :
    (run_ticks dec sid st files).map (fun ps => posGet ps sid) =
      files.map List.length ∧
    List.Chain' (· ≤ ·)
      (posGet st sid ::
        (run_ticks dec sid st files).map (fun ps => posGet ps sid)) := by
  induction files generalizing st with
  | nil => simp [run_ticks]
  | cons f fs ih =>
    have hf : posGet st sid ≤ f.length := by
      rcases h0 with h | h
      · exact absurd h (List.cons_ne_nil f fs)
      · simpa using h
    have ht := tick_posGet dec st sid f 0 hf
    have hchain := List.chain'_cons'.mp happ
    have h0' : fs = [] ∨
        posGet (sync_new_messages dec st sid (some f) 0).positions sid ≤
          (fs.headD []).length := by
      cases fs with
      | nil => exact Or.inl rfl
      | cons g gs =>
        refine Or.inr ?_
        have hpre : f <+: g := hchain.1 g rfl
        have := hpre.length_le
        simpa [ht] using this
    obtain ⟨ih1, ih2⟩ :=
      ih ((sync_new_messages dec st sid (some f) 0).positions) h0' hchain.2
    refine ⟨?_, ?_⟩
    · simpa [run_ticks, ht] using ih1
    · simp only [run_ticks, List.map_cons]
      rw [List.chain'_cons]
      constructor
      · simpa [ht] using hf
      · simpa using ih2

theorem C4_offset_monotone_tracks_size_witness :
    (([pyStr "a", pyStr "ab"] : List Str) = [] ∨
      posGet [] (pyStr "s") ≤
        (([pyStr "a", pyStr "ab"] : List Str).headD []).length) ∧
    List.Chain' (fun a b : Str => a <+: b) [pyStr "a", pyStr "ab"] ∧
    (run_ticks decSimple (pyStr "s") [] [pyStr "a", pyStr "ab"]).map
        (fun ps => posGet ps (pyStr "s")) =
      ([pyStr "a", pyStr "ab"] : List Str).map List.length :=
  ⟨Or.inr (by decide), List.chain'_pair.mpr ⟨['b'], by decide⟩,
   (C4_offset_monotone_tracks_size decSimple (pyStr "s") []
     [pyStr "a", pyStr "ab"] (Or.inr (by decide))
     (List.chain'_pair.mpr ⟨['b'], by decide⟩)).1⟩

/-- C1 counterexample: one tick over a file holding a single result
record produces the trace `[checkpointSaved, persistHandoff]` — the
advanced checkpoint is persisted *before* the records are handed to
persistence, so the claimed ordering (checkpoint advance only after
hand-off) is false for this tick. -/
theorem C1_counterexample :
    (sync_new_messages decSimple [] (pyStr "s") (some (pyStr "x\n")) 0).trace
        = [SyncEvent.checkpointSaved (pyStr "s") 2,
           SyncEvent.persistHandoff (pyStr "s") 1] ∧
    checkpoint_only_after_handoff
      (sync_new_messages decSimple [] (pyStr "s") (some (pyStr "x\n")) 0).trace
      false = false := by
  decide

/-- C1 (amended): on every tick that sees new bytes, the very first
externally visible step is saving the checkpoint already advanced to the
new end-of-file offset; the hand-off of the decoded records to
persistence (if any) only happens afterwards.  A crash between the two
steps therefore skips the records of that window. -/
theorem C1_checkpoint_saved_before_handoff (dec : Str → Option RawRecord)
    (st : SyncPositions) (sid : Str) (f : Str) (ec : Nat)
    (h : posGet st sid < f.length) :
    (sync_new_messages dec st sid (some f) ec).trace.head? =
      some (SyncEvent.checkpointSaved sid f.length) ∧
    ∀ e ∈ (sync_new_messages dec st sid (some f) ec).trace.tail,
      ∃ n, e = SyncEvent.persistHandoff sid n := by
  rw [sync_new_messages_some, if_neg (not_le_of_lt h)]
  split
  · simp
  · simp

theorem C1_checkpoint_saved_before_handoff_witness :
    posGet [] (pyStr "s") < (pyStr "x\n").length ∧
    (sync_new_messages decSimple [] (pyStr "s")
        (some (pyStr "x\n")) 0).trace.head? =
      some (SyncEvent.checkpointSaved (pyStr "s") (pyStr "x\n").length) :=
  ⟨by decide,
   (C1_checkpoint_saved_before_handoff decSimple [] (pyStr "s")
     (pyStr "x\n") 0 (by decide)).1⟩

/-! ## Event emission (C6) -/

/-- C6 counterexample: with listeners `[ok, raising, ok]` registered for
the event, emitting invokes only the first two — the listener after the
raising one is never invoked, refuting "a raising listener does not
prevent any of the remaining listeners from being invoked". -/
theorem C6_counterexample :
    (emit_event [(pyStr "e", [⟨0, false⟩, ⟨1, true⟩, ⟨2, false⟩])]
        (pyStr "e")).1 = [0, 1] ∧
    2 ∉ (emit_event [(pyStr "e", [⟨0, false⟩, ⟨1, true⟩, ⟨2, false⟩])]
        (pyStr "e")).1 := by
  decide

/-- C6 (amended): `_emit_event` wraps the whole listener loop in one
try/except, so when the first raising listener is reached the exception
is caught (nothing propagates out of the emit operation), but the loop
is aborted: exactly the listeners before the raiser plus the raiser
itself are invoked, and none of the listeners after it run. -/
theorem C6_emit_aborts_at_raising_listener (etype : Str)
    (pre : List Handler) (h : Handler) (post : List Handler)
    (hpre : ∀ g ∈ pre, g.raises = false) (hh : h.raises = true) :
    emit_event [(etype, pre ++ h :: post)] etype =
      (pre.map (fun g => g.id) ++ [h.id], false) := by
  have hrun : run_handlers (pre ++ h :: post) =
      (pre.map (fun g => g.id) ++ [h.id], true) := by
    induction pre with
    | nil => simp [run_handlers, hh]
    | cons g gs ih =>
      have hg := hpre g (by simp)
      have ih' := ih fun x hx => hpre x (by simp [hx])
      simp [run_handlers, hg, ih']
  simp [emit_event, List.find?, hrun]

theorem C6_emit_aborts_witness :
    (∀ g ∈ [(⟨0, false⟩ : Handler)], g.raises = false) ∧
    (⟨1, true⟩ : Handler).raises = true ∧
    emit_event [(pyStr "e", [⟨0, false⟩, ⟨1, true⟩, ⟨2, false⟩])]
        (pyStr "e") = ([0, 1], false) :=
  ⟨by decide, rfl,
   C6_emit_aborts_at_raising_listener (pyStr "e") [⟨0, false⟩] ⟨1, true⟩
     [⟨2, false⟩] (by decide) rfl⟩

/-! ## Empty-content records (C5) -/

/-- C5 counterexample: a user record (not a system/init record) whose
extracted content is empty is silently omitted by the batch pipeline
(`_process_messages` hits `if not content: continue`): the batch of one
such record produces no mirror row and no flag. -/
theorem C5_counterexample :
    extract_message_content emptyUserRec = [] ∧
    ¬ emptyUserRec.type = some (pyStr "system") ∧
    process_messages 0 [emptyUserRec] = [] := by
  decide

/-- C5 (amended): only the validated persistence path flags rather than
drops: `_create_validated_message` logs its empty-content warning for
every empty-content non-system message and still inserts the row
(content stored as the empty string).  The incremental batch pipeline
(`_process_messages`), by contrast, silently omits every record whose
extracted content is empty — see the counterexample. -/
theorem C5_validated_path_flags_and_persists (store : Store)
    (pm : ParsedMessage) (chat_id : Nat)
    (hempty : pm.content = []) (htype : ¬ pm.message_type = pyStr "system")
    (hsid : pm.session_id ≠ []) :
    empty_content_warning pm = true ∧
    ∃ dao, create_validated_message store pm chat_id =
      (some dao,
       { store with
         messages := store.messages ++ [dao]
         next_message_id := store.next_message_id + 1 }) := by
  constructor
  · simp [empty_content_warning, hempty, htype]
  · unfold create_validated_message
    rw [if_neg (by simpa using hsid)]
    exact ⟨_, rfl⟩

theorem C5_validated_path_witness :
    emptyPm.content = [] ∧ ¬ emptyPm.message_type = pyStr "system" ∧
    emptyPm.session_id ≠ [] ∧ empty_content_warning emptyPm = true :=
  ⟨rfl, by decide, by decide,
   (C5_validated_path_flags_and_persists ⟨[], [], 1, 1⟩ emptyPm 1 rfl
     (by decide) (by decide)).1⟩

/-! ## Truncation boundary (C7) -/

theorem get_content_limit_ge (pm : ParsedMessage) :
    500 ≤ get_content_limit pm := by
  unfold get_content_limit
  split_ifs <;> omega

theorem pyRfind_lt (s : Str) (c : Char) :
    pyRfind s c < (s.length : Int) := by
  induction s with
  | nil => simp [pyRfind]
  | cons x xs ih =>
    simp only [pyRfind, List.length_cons]
    split_ifs with h1 h2 <;> push_cast <;> omega

theorem pyDropWhile_length_le (p : Char → Bool) (l : Str) :
    (l.dropWhile p).length ≤ l.length := by
  induction l with
  | nil => simp
  | cons x xs ih =>
    rw [List.dropWhile_cons]
    split
    · exact le_trans ih (by simp)
    · simp

theorem pyRstrip_length_le (s : Str) : (pyRstrip s).length ≤ s.length := by
  unfold pyRstrip
  calc (s.reverse.dropWhile pyIsSpace).reverse.length
      = (s.reverse.dropWhile pyIsSpace).length := List.length_reverse _
    _ ≤ s.reverse.length := pyDropWhile_length_le _ _
    _ = s.length := List.length_reverse _

theorem pyLstrip_length_le (s : Str) : (pyLstrip s).length ≤ s.length :=
  pyDropWhile_length_le _ _

theorem pyTakeLast_length_le (n : Nat) (s : Str) :
    (pyTakeLast n s).length ≤ n := by
  unfold pyTakeLast
  rw [List.length_drop]
  omega

theorem truncate_text_content_lt (c : Str) (L : Nat)
    (hlen : c.length = L + 1) (hL : 500 ≤ L) :
    (truncate_text_content c L).length < c.length := by
  simp only [truncate_text_content]
  rw [if_neg (by omega)]
  have htr : (c.take (L - 3)).length = L - 3 := by
    rw [List.length_take]; omega
  have hfind := pyRfind_lt (c.take (L - 3)) ' '
  rw [htr] at hfind
  have hcast : ((L - 3 : Nat) : Int) = (L : Int) - 3 := by omega
  rw [hcast] at hfind
  split
  · next hcond =>
    rw [List.length_append, List.length_take]
    have h3 : (pyStr "...").length = 3 := by decide
    rw [h3]
    have hmin := min_le_left (pyRfind (c.take (L - 3)) ' ').toNat c.length
    omega
  · rw [List.length_append, List.length_take]
    have h3 : (pyStr "...").length = 3 := by decide
    rw [h3]
    have hmin := min_le_left (L - 3) c.length
    omega

theorem truncate_structured_content_lt (c : Str) (L : Nat)
    (hlen : c.length = L + 1) (hL : 500 ≤ L) :
    (truncate_structured_content c L).length < c.length := by
  simp only [truncate_structured_content]
  rw [if_neg (by omega)]
  have h29 : (pyStr "\n[... content truncated ...]\n").length = 29 := by decide
  rw [h29, if_neg (by omega)]
  rw [List.length_append, List.length_append, h29]
  have hb : (pyRstrip (c.take ((L - 29) * 2 / 3))).length ≤ (L - 29) * 2 / 3 := by
    calc (pyRstrip (c.take ((L - 29) * 2 / 3))).length
        ≤ (c.take ((L - 29) * 2 / 3)).length := pyRstrip_length_le _
      _ ≤ (L - 29) * 2 / 3 := by rw [List.length_take]; omega
  have he : (pyLstrip (pyTakeLast ((L - 29) - (L - 29) * 2 / 3) c)).length ≤
      (L - 29) - (L - 29) * 2 / 3 := by
    calc (pyLstrip (pyTakeLast ((L - 29) - (L - 29) * 2 / 3) c)).length
        ≤ (pyTakeLast ((L - 29) - (L - 29) * 2 / 3) c).length :=
          pyLstrip_length_le _
      _ ≤ (L - 29) - (L - 29) * 2 / 3 := pyTakeLast_length_le _ _
  omega

theorem mget_mset_self (m : Metadata) (k : Str) (v : MVal) :
    mget (mset m k v) k = some v := by
  induction m with
  | nil => simp [mset, mget, List.find?]
  | cons p rest ih =>
    obtain ⟨k', v'⟩ := p
    by_cases h : k' = k
    · subst h; simp [mset, mget, List.find?]
    · simpa [mset, mget, h, List.find?] using ih

theorem mget_mset_ne (m : Metadata) (k k' : Str) (v : MVal)
    (h : ¬ k = k') : mget (mset m k v) k' = mget m k' := by
  induction m with
  | nil => simp [mset, mget, List.find?, h]
  | cons p rest ih =>
    obtain ⟨k0, v0⟩ := p
    by_cases h0 : k0 = k
    · subst h0
      simp [mset, mget, List.find?, h]
    · by_cases h1 : k0 = k'
      · subst h1; simp [mset, mget, List.find?, h0]
      · simpa [mset, mget, List.find?, h0, h1] using ih

/-- C7 counterexample: a 501-character `LS` tool result is one character
over its 500-character cap; `truncate_message` flags it
(`truncation_applied=true`, `original_length=501`) but the verbose-tool
summary path *grows* the content to 506 characters, so "the returned
content is shortened" fails. -/
theorem C7_counterexample :
    cexPm.content.length = get_content_limit cexPm + 1 ∧
    mget (truncate_message cexPm).message_metadata
        (pyStr "truncation_applied") = some (.b true) ∧
    (truncate_message cexPm).content.length = 506 ∧
    ¬ (truncate_message cexPm).content.length < cexPm.content.length := by
  decide

/-- C7 (amended): a message whose content is within (in particular
exactly at) the applicable cap is returned with content and metadata
untouched.  A message one character over the cap is flagged
`truncation_applied=true` with `original_length` preserved, and its
content is strictly shortened on every path except the verbose-tool
summary path (`_truncate_tool_result` on a tool result whose tool is in
`VERBOSE_TOOLS`), where the rebuilt summary can exceed the original
length — see the counterexample. -/
theorem C7_truncation_boundary (pm : ParsedMessage) :
    (pm.content.length ≤ get_content_limit pm → truncate_message pm = pm) ∧
    (pm.content.length = get_content_limit pm + 1 →
      mget (truncate_message pm).message_metadata
          (pyStr "truncation_applied") = some (.b true) ∧
      mget (truncate_message pm).message_metadata
          (pyStr "original_length") =
        some (.n (get_content_limit pm + 1)) ∧
      (¬ (is_tool_result pm = true ∧
          truncatorVerboseTools.contains
            (metaToolName pm.message_metadata) = true) →
        (truncate_message pm).content.length < pm.content.length)) := by
  constructor
  · intro h
    simp only [truncate_message]
    rw [if_pos h]
  · intro h
    have hnot : ¬ pm.content.length ≤ get_content_limit pm := by omega
    have hL := get_content_limit_ge pm
    simp only [truncate_message]
    rw [if_neg hnot]
    refine ⟨?_, ?_, ?_⟩
    · simp only [mupdate, List.foldl]
      rw [mget_mset_ne _ _ _ _ (by decide)]
      exact mget_mset_self _ _ _
    · simp only [mupdate, List.foldl]
      rw [mget_mset_ne _ _ _ _ (by decide),
          mget_mset_ne _ _ _ _ (by decide),
          mget_mset_ne _ _ _ _ (by decide), mget_mset_self, h]
    · intro hnv
      simp only [apply_truncation]
      rw [if_neg hnot]
      by_cases htool : is_tool_result pm = true
      · rw [if_pos htool]
        simp only [truncate_tool_result]
        have hverb : ¬ truncatorVerboseTools.contains
            (metaToolName pm.message_metadata) = true :=
          fun hc => hnv ⟨htool, hc⟩
        rw [if_neg hverb]
        exact truncate_text_content_lt _ _ h hL
      · rw [if_neg htool]
        by_cases hstruct : is_structured_content pm.content = true
        · rw [if_pos hstruct]
          exact truncate_structured_content_lt _ _ h hL
        · rw [if_neg hstruct]
          exact truncate_text_content_lt _ _ h hL

theorem C7_truncation_boundary_witness :
    shortPm.content.length ≤ get_content_limit shortPm ∧
    truncate_message shortPm = shortPm ∧
    plainPm.content.length = get_content_limit plainPm + 1 ∧
    mget (truncate_message plainPm).message_metadata
        (pyStr "truncation_applied") = some (.b true) :=
  ⟨by decide, (C7_truncation_boundary shortPm).1 (by decide), by decide,
   ((C7_truncation_boundary plainPm).2 (by decide)).1⟩

/-! ## Duplicate-persist frame behaviour (C10) -/

/-- C10: when the duplicate-detection key of a parsed message matches
exactly the one stored row of the session's conversation (resolved
either from the passed chat or from the warm chat cache),
`persist_message` returns that stored row — not a failure — and the
whole coordinator state is unchanged: no row is inserted and no stored
field is modified. -/
theorem C10_duplicate_persist_returns_existing (st : PCState)
    (pm : ParsedMessage) (chat_arg : Option ChatDao) (c : ChatDao)
    (m : MessageDao)
    (hchat : chat_arg = some c ∨
      (chat_arg = none ∧ cacheGet st.chat_cache pm.session_id = some c))
    (hdup : st.store.messages.filter (dup_matches pm c.id) = [m]) :
    persist_message st pm chat_arg = (some m, st) := by
  have hcheck : check_duplicate_message st.store pm c.id = .ok (some m) := by
    unfold check_duplicate_message
    rw [hdup]
  have hsess : persist_message_in_session st pm chat_arg =
      .ok (some m, st) := by
    unfold persist_message_in_session
    rcases hchat with h | ⟨h, hc⟩
    · subst h
      simp only [hcheck]
    · subst h
      unfold ensure_chat_exists
      simp only [hc, hcheck]
  unfold persist_message
  rw [hsess]

/-! ## Side-task classification (C8) -/

theorem detect_heuristic_append (pre rest : List Block)
    (hpre : ∀ b ∈ pre, recognized_tool b = false) :
    detect_heuristic (pre ++ rest) = detect_heuristic rest := by
  induction pre with
  | nil => rfl
  | cons b pre' ih =>
    have hb := hpre b (by simp)
    have ih' := ih fun x hx => hpre x (by simp [hx])
    cases b with
    | toolUse name id input =>
      simp only [recognized_tool, Bool.or_eq_false_iff,
        decide_eq_false_iff_not] at hb
      obtain ⟨⟨⟨h1, h2⟩, h3⟩, h4⟩ := hb
      simpa [detect_heuristic, if_neg h1, if_neg h2,
        if_neg (show ¬(name.getD [] = pyStr "Agent" ∨
          name.getD [] = pyStr "SubAgent") by tauto)] using ih'
    | text s => simpa [detect_heuristic] using ih'
    | toolResult c => simpa [detect_heuristic] using ih'
    | other => simpa [detect_heuristic] using ih'

theorem detect_heuristic_text_only (bs : List Block)
    (h : ∀ b ∈ bs, ∃ t, b = Block.text t) :
    detect_heuristic bs = none := by
  induction bs with
  | nil => rfl
  | cons b rest ih =>
    obtain ⟨t, rfl⟩ := h b (by simp)
    simpa [detect_heuristic] using ih fun x hx => h x (by simp [hx])

/-- C8: for a record with no explicit sidechain flag, when the content's
first recognised tool invocation is the `Task` (spawn-sub-agent) tool,
the record is classified as a side-task of source category `task`; when
it is the `TodoWrite` (write-todo-list) tool, category `todo`; and a
content of only text blocks is not a side-task — its source stays
`main`. -/
theorem C8_side_task_classification (r : RawRecord) (mb : MsgBody)
    (bs : List Block) (hflag : r.isSidechain = false)
    (hm : r.message = some mb) (hc : mb.content = some (.blocks bs)) :
    (∀ pre name id input post,
      bs = pre ++ Block.toolUse name id input :: post →
      (∀ b ∈ pre, recognized_tool b = false) →
      name.getD [] = pyStr "Task" →
      (detect_sidechain_properties r).1 = true ∧
        (detect_sidechain_properties r).2.2 = pyStr "task") ∧
    (∀ pre name id input post,
      bs = pre ++ Block.toolUse name id input :: post →
      (∀ b ∈ pre, recognized_tool b = false) →
      name.getD [] = pyStr "TodoWrite" →
      (detect_sidechain_properties r).1 = true ∧
        (detect_sidechain_properties r).2.2 = pyStr "todo") ∧
    ((∀ b ∈ bs, ∃ t, b = Block.text t) →
      (detect_sidechain_properties r).1 = false ∧
        (detect_sidechain_properties r).2.2 = pyStr "main") := by
  refine ⟨?_, ?_, ?_⟩
  · intro pre name id input post hbs hpre hname
    have hdh : detect_heuristic bs = some (pyStr "task",
        [(pyStr "tool_name", .s (name.getD [])),
         (pyStr "tool_input", .dict input),
         (pyStr "detected_via", .s (pyStr "task_heuristic"))]) := by
      rw [hbs, detect_heuristic_append pre _ hpre]
      simp only [detect_heuristic, if_pos hname]
    unfold detect_sidechain_properties
    simp [hflag, hm, hc, hdh]
  · intro pre name id input post hbs hpre hname
    have hdh : detect_heuristic bs = some (pyStr "todo",
        [(pyStr "tool_name", .s (name.getD [])),
         (pyStr "tool_input", .dict input),
         (pyStr "detected_via", .s (pyStr "todo_heuristic"))]) := by
      rw [hbs, detect_heuristic_append pre _ hpre]
      simp only [detect_heuristic, if_neg (by rw [hname]; decide :
        ¬ name.getD [] = pyStr "Task"), if_pos hname]
    unfold detect_sidechain_properties
    simp [hflag, hm, hc, hdh]
  · intro htext
    have hdh := detect_heuristic_text_only bs htext
    unfold detect_sidechain_properties
    simp [hflag, hm, hc, hdh]

theorem C8_side_task_classification_witness :
    ((detect_sidechain_properties taskRec).1 = true ∧
      (detect_sidechain_properties taskRec).2.2 = pyStr "task") ∧
    ((detect_sidechain_properties todoRec).1 = true ∧
      (detect_sidechain_properties todoRec).2.2 = pyStr "todo") ∧
    ((detect_sidechain_properties textRec).1 = false ∧
      (detect_sidechain_properties textRec).2.2 = pyStr "main") :=
  ⟨(C8_side_task_classification taskRec
      ⟨some (.blocks taskBlocks), none, none, none⟩ taskBlocks rfl rfl
      rfl).1
    [] (some (pyStr "Task")) none [] [] rfl (by simp) rfl,
   (C8_side_task_classification todoRec
      ⟨some (.blocks todoBlocks), none, none, none⟩ todoBlocks rfl rfl
      rfl).2.1
    [] (some (pyStr "TodoWrite")) none [] [] rfl (by simp) rfl,
   (C8_side_task_classification textRec
      ⟨some (.blocks textBlocks), none, none, none⟩ textBlocks rfl rfl
      rfl).2.2
    (by intro b hb; simp [textBlocks] at hb; exact ⟨_, hb⟩)⟩

/-! ## Tool-only assistant rendering (C9) -/

theorem mem_pyJoin_infix (sep : Str) (parts : List Str) (x : Str)
    (hx : x ∈ parts) : x <:+: pyJoin sep parts := by
  induction parts with
  | nil => cases hx
  | cons p ps ih =>
    rcases List.mem_cons.mp hx with rfl | hx
    · cases ps with
      | nil => exact List.infix_refl x
      | cons q qs =>
        exact ⟨[], sep ++ pyJoin sep (q :: qs), by simp [pyJoin]⟩
    · cases ps with
      | nil => cases hx
      | cons q qs =>
        have h1 := ih hx
        have h2 : pyJoin sep (q :: qs) <:+: pyJoin sep (p :: q :: qs) :=
          ⟨p ++ sep, [], by simp [pyJoin]⟩
        exact h1.trans h2

theorem pyJoin_cons_ne_nil (sep p : Str) (ps : List Str) (hp : p ≠ []) :
    pyJoin sep (p :: ps) ≠ [] := by
  cases ps with
  | nil => simpa [pyJoin] using hp
  | cons q qs =>
    simp only [pyJoin]
    intro hcontra
    rcases List.append_eq_nil.mp hcontra with ⟨h1, -⟩
    rcases List.append_eq_nil.mp h1 with ⟨h2, -⟩
    exact hp h2

theorem mem_assistant_parts (bs : List Block) (name id : Option Str)
    (input : List (Str × PVal)) (hmem : Block.toolUse name id input ∈ bs) :
    (pyStr "[Tool Use: " ++ name.getD (pyStr "unknown") ++ pyStr " (" ++
        truncToolId id ++ pyStr ")]") ∈ assistant_parts bs := by
  induction bs with
  | nil => cases hmem
  | cons b rest ih =>
    rcases List.mem_cons.mp hmem with rfl | hmem'
    · simp [assistant_parts]
    · clear hmem
      cases b with
      | text t =>
        by_cases hs : (pyStrip (t.getD [])).isEmpty
        · simpa [assistant_parts, hs] using ih hmem'
        · simp only [assistant_parts]
          rw [if_neg (by simpa using hs)]
          exact List.mem_cons_of_mem _ (ih hmem')
      | toolUse n i inp =>
        exact List.mem_cons_of_mem _ (ih hmem')
      | toolResult c => simpa [assistant_parts] using ih hmem'
      | other => simpa [assistant_parts] using ih hmem'

theorem extract_content_assistant (r : RawRecord) (mb : MsgBody)
    (bs : List Block) (hm : r.message = some mb)
    (hc : mb.content = some (.blocks bs)) :
    extract_content r (pyStr "assistant") =
      (if (assistant_parts bs).isEmpty then []
       else pyJoin (pyStr "\n") (assistant_parts bs)) := by
  unfold extract_content
  rw [if_neg (by decide), if_neg (by decide), if_pos rfl]
  simp [hm, hc]

/-- C9: an assistant record whose message content is a non-empty list of
only `tool_use` blocks parses to non-empty rendered content, and for
every such block the rendered content contains the tool's name and the
truncated form of its id. -/
theorem C9_tool_only_assistant_renders (r : RawRecord) (mb : MsgBody)
    (bs : List Block) (seq : Nat) (ovr : Option Str) (now : Nat)
    (htype : r.type = some (pyStr "assistant"))
    (hm : r.message = some mb) (hc : mb.content = some (.blocks bs))
    (hne : bs ≠ [])
    (hall : ∀ b ∈ bs, ∃ name id input, b = Block.toolUse name id input) :
    (parse_claude_message seq r ovr now).content ≠ [] ∧
    ∀ name id input, Block.toolUse name id input ∈ bs →
      name.getD (pyStr "unknown") <:+:
        (parse_claude_message seq r ovr now).content ∧
      truncToolId id <:+:
        (parse_claude_message seq r ovr now).content := by
  have hcontent : (parse_claude_message seq r ovr now).content =
      extract_content r (pyStr "assistant") := by
    simp [parse_claude_message, htype]
  obtain ⟨b, rest, rfl⟩ := List.exists_cons_of_ne_nil hne
  obtain ⟨n0, i0, inp0, hb⟩ := hall b (List.mem_cons_self b rest)
  subst hb
  have hparts : assistant_parts (Block.toolUse n0 i0 inp0 :: rest) =
      (pyStr "[Tool Use: " ++ n0.getD (pyStr "unknown") ++ pyStr " (" ++
        truncToolId i0 ++ pyStr ")]") :: assistant_parts rest := by
    simp [assistant_parts]
  have hhead_ne : (pyStr "[Tool Use: " ++ n0.getD (pyStr "unknown") ++
      pyStr " (" ++ truncToolId i0 ++ pyStr ")]") ≠ ([] : Str) := by
    simp [pyStr]
  have hne_parts :
      ¬ (assistant_parts (Block.toolUse n0 i0 inp0 :: rest)).isEmpty = true := by
    rw [hparts]; simp
  have hjoin : (parse_claude_message seq r ovr now).content =
      pyJoin (pyStr "\n") (assistant_parts (Block.toolUse n0 i0 inp0 :: rest)) := by
    rw [hcontent, extract_content_assistant r mb _ hm hc, if_neg hne_parts]
  constructor
  · rw [hjoin, hparts]
    exact pyJoin_cons_ne_nil _ _ _ hhead_ne
  · intro name id input hmem
    have hrender := mem_assistant_parts _ name id input hmem
    have hinf := mem_pyJoin_infix (pyStr "\n") _ _ hrender
    rw [hjoin]
    constructor
    · refine List.IsInfix.trans ?_ hinf
      exact ⟨pyStr "[Tool Use: ",
        pyStr " (" ++ truncToolId id ++ pyStr ")]",
        by simp [List.append_assoc]⟩
    · refine List.IsInfix.trans ?_ hinf
      exact ⟨pyStr "[Tool Use: " ++ name.getD (pyStr "unknown") ++ pyStr " (",
        pyStr ")]", by simp [List.append_assoc]⟩

theorem C9_tool_only_assistant_renders_witness :
    (parse_claude_message 1 bashRec none 0).content ≠ [] ∧
    pyStr "Bash" <:+: (parse_claude_message 1 bashRec none 0).content ∧
    pyStr "toolu_AB..." <:+:
      (parse_claude_message 1 bashRec none 0).content := by
  have h := C9_tool_only_assistant_renders bashRec
    ⟨some (.blocks bashBlocks), none, none, none⟩ bashBlocks 1 none 0
    rfl rfl rfl (by decide)
    (by intro b hb; simp [bashBlocks] at hb; exact ⟨_, _, _, hb⟩)
  have h2 := h.2 (some (pyStr "Bash")) (some (pyStr "toolu_ABCDEFGH"))
    [(pyStr "command", .s (pyStr "ls"))] (by simp [bashBlocks])
  exact ⟨h.1, by simpa using h2.1, by simpa using h2.2⟩

theorem C10_duplicate_persist_witness :
    cacheGet c10State.chat_cache c10Pm.session_id = some c10Chat ∧
    c10State.store.messages.filter (dup_matches c10Pm c10Chat.id) =
      [c10Msg] ∧
    persist_message c10State c10Pm none = (some c10Msg, c10State) :=
  ⟨by decide, by decide,
   C10_duplicate_persist_returns_existing c10State c10Pm none c10Chat
     c10Msg (Or.inr ⟨rfl, by decide⟩) (by decide)⟩

/-! ## Idempotent replay (C2) -/

theorem parse_session_id_override (seq : Nat) (r : RawRecord) (sid : Str)
    (now : Nat) (h : sid ≠ []) :
    (parse_claude_message seq r (some sid) now).session_id = sid := by
  simp [parse_claude_message, show ¬sid.isEmpty = true by simpa using h]

theorem extract_timestamp_clock_free (r : RawRecord) (t t' : Nat)
    (hstr : r.timestampStr.isSome = true)
    (hne : (r.timestampStr.getD []).isEmpty = false)
    (hval : r.timestampVal.isSome = true) :
    extract_timestamp r t = extract_timestamp r t' := by
  obtain ⟨ts, hts⟩ := Option.isSome_iff_exists.mp hstr
  obtain ⟨v, hv⟩ := Option.isSome_iff_exists.mp hval
  rw [hts] at hne
  have hts_ne : ts ≠ [] := by simpa using hne
  simp [extract_timestamp, hts, hv, hts_ne]

theorem dup_matches_parse_clock_free (r : RawRecord) (sid : Str)
    (t t' : Nat) (cid : Nat) (m : MessageDao)
    (h : clock_independent_ts r) :
    dup_matches (parse_claude_message 1 r (some sid) t) cid m =
      dup_matches (parse_claude_message 1 r (some sid) t') cid m := by
  have htype : ∀ u : Nat,
      (parse_claude_message 1 r (some sid) u).message_type =
        r.type.getD [] := fun _ => rfl
  have hcont : ∀ u : Nat,
      (parse_claude_message 1 r (some sid) u).content =
        extract_content r (r.type.getD []) := fun _ => rfl
  have hts : ∀ u : Nat,
      (parse_claude_message 1 r (some sid) u).timestamp =
        extract_timestamp r u := fun _ => rfl
  unfold dup_matches
  rw [htype, htype, hcont, hcont, hts, hts]
  by_cases hsys : r.type.getD [] = pyStr "system" ∨
      r.type.getD [] = pyStr "result"
  · rw [if_pos hsys, if_pos hsys]
    obtain ⟨hval, hstr, hne⟩ := h hsys
    rw [extract_timestamp_clock_free r t t' hstr hne hval]
  · rw [if_neg hsys, if_neg hsys]

theorem cacheGet_append_of_some (cache : List (Str × ChatDao)) (e : Str × ChatDao)
    (s : Str) (c : ChatDao) (h : cacheGet cache s = some c) :
    cacheGet (cache ++ [e]) s = some c := by
  induction cache with
  | nil => simp [cacheGet, List.find?] at h
  | cons p rest ih =>
    by_cases hp : p.1 = s
    · simpa [cacheGet, List.find?, hp] using
        (by simpa [cacheGet, List.find?, hp] using h :
          some p.2 = some c)
    · simp only [cacheGet, List.cons_append, List.find?] at h ⊢
      rw [show (decide (p.1 = s)) = false by simpa using hp] at h ⊢
      exact ih h

theorem cacheGet_append_of_none (cache : List (Str × ChatDao)) (s : Str)
    (c : ChatDao) (h : cacheGet cache s = none) :
    cacheGet (cache ++ [(s, c)]) s = some c := by
  induction cache with
  | nil => simp [cacheGet, List.find?]
  | cons p rest ih =>
    by_cases hp : p.1 = s
    · simp [cacheGet, List.find?, hp] at h
    · simp only [cacheGet, List.cons_append, List.find?] at h ⊢
      rw [show (decide (p.1 = s)) = false by simpa using hp] at h ⊢
      exact ih h

theorem ensure_cache_hit (st : PCState) (pm : ParsedMessage) (c : ChatDao)
    (h : cacheGet st.chat_cache pm.session_id = some c) :
    ensure_chat_exists st pm = .ok (some c, st) := by
  simp only [ensure_chat_exists]
  rw [h]

theorem check_dup_error_match (store : Store) (pm : ParsedMessage)
    (cid : Nat) (h : check_duplicate_message store pm cid = .error ()) :
    ∃ m ∈ store.messages, dup_matches pm cid m = true := by
  unfold check_duplicate_message at h
  rcases hfil : store.messages.filter (dup_matches pm cid) with - | ⟨m1, - | ⟨m2, rest⟩⟩
  · rw [hfil] at h; simp at h
  · rw [hfil] at h; simp at h
  · have hmem : m1 ∈ store.messages.filter (dup_matches pm cid) := by
      rw [hfil]; simp
    have := List.mem_filter.mp hmem
    exact ⟨m1, this.1, this.2⟩

theorem check_dup_some_match (store : Store) (pm : ParsedMessage)
    (cid : Nat) (m : MessageDao)
    (h : check_duplicate_message store pm cid = .ok (some m)) :
    m ∈ store.messages ∧ dup_matches pm cid m = true := by
  unfold check_duplicate_message at h
  rcases hfil : store.messages.filter (dup_matches pm cid) with - | ⟨m1, - | ⟨m2, rest⟩⟩
  · rw [hfil] at h; simp at h
  · rw [hfil] at h
    have hm : m1 = m := by simpa using h
    subst hm
    have hmem : m1 ∈ store.messages.filter (dup_matches pm cid) := by
      rw [hfil]; simp
    exact List.mem_filter.mp hmem
  · rw [hfil] at h; simp at h

theorem check_dup_none_of_no_match (store : Store) (pm : ParsedMessage)
    (cid : Nat)
    (h : ∃ m ∈ store.messages, dup_matches pm cid m = true) :
    check_duplicate_message store pm cid ≠ .ok none := by
  unfold check_duplicate_message
  obtain ⟨m, hmem, hmatch⟩ := h
  have hin : m ∈ store.messages.filter (dup_matches pm cid) :=
    List.mem_filter.mpr ⟨hmem, hmatch⟩
  rcases hfil : store.messages.filter (dup_matches pm cid) with - | ⟨m1, - | ⟨m2, rest⟩⟩
  · rw [hfil] at hin; cases hin
  · simp
  · simp

theorem dup_matches_created (pm : ParsedMessage) (cid : Nat)
    (dao : MessageDao) (h1 : dao.chat_id = cid)
    (h2 : dao.message_type = pm.message_type)
    (h3 : dao.content = pm.content) (h4 : dao.timestamp = pm.timestamp) :
    dup_matches pm cid dao = true := by
  unfold dup_matches
  split_ifs <;> simp [h1, h2, h3, h4]

theorem create_validated_some (store : Store) (pm : ParsedMessage)
    (cid : Nat) (hsid : pm.session_id ≠ []) :
    ∃ dao, create_validated_message store pm cid =
      (some dao,
       { store with
         messages := store.messages ++ [dao]
         next_message_id := store.next_message_id + 1 }) ∧
      dao.chat_id = cid ∧ dao.message_type = pm.message_type ∧
      dao.content = pm.content ∧ dao.timestamp = pm.timestamp := by
  unfold create_validated_message
  rw [if_neg (by simpa using hsid)]
  exact ⟨_, rfl, rfl, rfl, rfl, rfl⟩

theorem pmis_none_eq (st : PCState) (pm : ParsedMessage) :
    persist_message_in_session st pm none =
      (match ensure_chat_exists st pm with
       | .error st₁ => .error st₁
       | .ok (none, st₁) => .ok (none, st₁)
       | .ok (some chat, st₁) =>
         match check_duplicate_message st₁.store pm chat.id with
         | .error () => .error st₁
         | .ok (some existing) => .ok (some existing, st₁)
         | .ok none =>
           let r := create_validated_message st₁.store pm chat.id
           .ok (r.1, { st₁ with store := r.2 })) := rfl

theorem pmis_hit_dup (st : PCState) (pm : ParsedMessage) (c : ChatDao)
    (existing : MessageDao)
    (hc : cacheGet st.chat_cache pm.session_id = some c)
    (hcd : check_duplicate_message st.store pm c.id = .ok (some existing)) :
    persist_message_in_session st pm none = .ok (some existing, st) := by
  simp only [pmis_none_eq, ensure_cache_hit st pm c hc, hcd]

theorem pmis_hit_err (st : PCState) (pm : ParsedMessage) (c : ChatDao)
    (hc : cacheGet st.chat_cache pm.session_id = some c)
    (hcd : check_duplicate_message st.store pm c.id = .error ()) :
    persist_message_in_session st pm none = .error st := by
  simp only [pmis_none_eq, ensure_cache_hit st pm c hc, hcd]

theorem pmis_hit_new (st : PCState) (pm : ParsedMessage) (c : ChatDao)
    (hc : cacheGet st.chat_cache pm.session_id = some c)
    (hcd : check_duplicate_message st.store pm c.id = .ok none) :
    persist_message_in_session st pm none =
      .ok ((create_validated_message st.store pm c.id).1,
        { st with store := (create_validated_message st.store pm c.id).2 }) := by
  simp only [pmis_none_eq, ensure_cache_hit st pm c hc, hcd]

theorem persist_of_pmis_ok_some (st : PCState) (pm : ParsedMessage)
    (ch : Option ChatDao) (dao : MessageDao) (st' : PCState)
    (h : persist_message_in_session st pm ch = .ok (some dao, st')) :
    persist_message st pm ch = (some dao, st') := by
  unfold persist_message
  rw [h]

theorem persist_of_pmis_err (st : PCState) (pm : ParsedMessage)
    (ch : Option ChatDao) (st' : PCState)
    (h : persist_message_in_session st pm ch = .error st') :
    persist_message st pm ch = (none, ⟨st.store, st'.chat_cache⟩) := by
  unfold persist_message
  rw [h]

theorem persist_cache_hit_shape (st : PCState) (pm : ParsedMessage)
    (c : ChatDao) (hc : cacheGet st.chat_cache pm.session_id = some c)
    (hsid : pm.session_id ≠ []) :
    (persist_message st pm none).2.chat_cache = st.chat_cache ∧
    (∃ tail, (persist_message st pm none).2.store.messages =
      st.store.messages ++ tail) ∧
    ∃ m ∈ (persist_message st pm none).2.store.messages,
      dup_matches pm c.id m = true := by
  rcases hcd : check_duplicate_message st.store pm c.id with u | md
  · cases u
    rw [persist_of_pmis_err st pm none st (pmis_hit_err st pm c hc hcd)]
    refine ⟨rfl, ⟨[], by simp⟩, ?_⟩
    exact check_dup_error_match st.store pm c.id hcd
  · rcases md with - | existing
    · obtain ⟨dao, hcr, hcid, hty, hco, hts⟩ :=
        create_validated_some st.store pm c.id hsid
      have hpm := pmis_hit_new st pm c hc hcd
      rw [hcr] at hpm
      rw [persist_of_pmis_ok_some st pm none dao _ hpm]
      refine ⟨rfl, ⟨[dao], rfl⟩, dao, by simp, ?_⟩
      exact dup_matches_created pm c.id dao hcid hty hco hts
    · rw [persist_of_pmis_ok_some st pm none existing st
        (pmis_hit_dup st pm c existing hc hcd)]
      obtain ⟨hmem, hmatch⟩ := check_dup_some_match st.store pm c.id existing hcd
      exact ⟨rfl, ⟨[], by simp⟩, existing, hmem, hmatch⟩

theorem persist_noop (st : PCState) (pm : ParsedMessage) (c : ChatDao)
    (hc : cacheGet st.chat_cache pm.session_id = some c)
    (hmatch : ∃ m ∈ st.store.messages, dup_matches pm c.id m = true) :
    (persist_message st pm none).2 = st := by
  rcases hcd : check_duplicate_message st.store pm c.id with u | md
  · cases u
    rw [persist_of_pmis_err st pm none st (pmis_hit_err st pm c hc hcd)]
  · rcases md with - | existing
    · exact absurd hcd (check_dup_none_of_no_match st.store pm c.id hmatch)
    · rw [persist_of_pmis_ok_some st pm none existing st
        (pmis_hit_dup st pm c existing hc hcd)]

theorem persist_empty_establishes (pm : ParsedMessage)
    (hsid : pm.session_id ≠ []) :
    ∃ c, cacheGet (persist_message PCState.empty pm none).2.chat_cache
        pm.session_id = some c ∧
      ∃ m ∈ (persist_message PCState.empty pm none).2.store.messages,
        dup_matches pm c.id m = true := by
  set c₀ : ChatDao :=
    ⟨1, generate_chat_title pm, pm.session_id, pyStr "claude-code",
     pm.timestamp⟩ with hc₀
  set st₁ : PCState := ⟨⟨[c₀], [], 2, 1⟩, [(pm.session_id, c₀)]⟩ with hst₁
  have hens : ensure_chat_exists PCState.empty pm = .ok (some c₀, st₁) := rfl
  have hcd : check_duplicate_message st₁.store pm c₀.id = .ok none := rfl
  have hpm0 : persist_message_in_session PCState.empty pm none =
      .ok ((create_validated_message st₁.store pm c₀.id).1,
        { st₁ with store := (create_validated_message st₁.store pm c₀.id).2 }) := by
    simp only [pmis_none_eq, hens, hcd]
  obtain ⟨dao, hcr, hcid, hty, hco, hts⟩ :=
    create_validated_some st₁.store pm c₀.id hsid
  rw [hcr] at hpm0
  rw [persist_of_pmis_ok_some _ _ _ _ _ hpm0]
  refine ⟨c₀, ?_, dao, ?_, ?_⟩
  · simp [cacheGet, List.find?]
  · simp
  · exact dup_matches_created pm c₀.id dao hcid hty hco hts

theorem replay_lines_cons (st : PCState) (sid : Str) (r : RawRecord)
    (rest : List RawRecord) (t : Nat) :
    replay_lines st sid (r :: rest) t =
      replay_lines
        (persist_message st (parse_claude_message 1 r (some sid) t) none).2
        sid rest (t + 1) := rfl

theorem replay_preserves (lines : List RawRecord) (sid : Str)
    (hsid : sid ≠ []) (c : ChatDao) :
    ∀ (t : Nat) (st : PCState), cacheGet st.chat_cache sid = some c →
      cacheGet (replay_lines st sid lines t).chat_cache sid = some c ∧
      ∃ tail, (replay_lines st sid lines t).store.messages =
        st.store.messages ++ tail := by
  induction lines with
  | nil => exact fun t st hc => ⟨hc, [], by simp [replay_lines]⟩
  | cons r rest ih =>
    intro t st hc
    have hps : (parse_claude_message 1 r (some sid) t).session_id = sid :=
      parse_session_id_override 1 r sid t hsid
    obtain ⟨hcache, ⟨tail1, hmsgs1⟩, -⟩ :=
      persist_cache_hit_shape st (parse_claude_message 1 r (some sid) t) c
        (by rw [hps]; exact hc) (by rw [hps]; exact hsid)
    have hc₁ : cacheGet
        (persist_message st (parse_claude_message 1 r (some sid) t)
          none).2.chat_cache sid = some c := by
      rw [hcache]; exact hc
    obtain ⟨hfin_cache, tail2, hfin_msgs⟩ := ih (t + 1) _ hc₁
    rw [replay_lines_cons]
    exact ⟨hfin_cache, tail1 ++ tail2,
      by rw [hfin_msgs, hmsgs1, List.append_assoc]⟩

theorem replay_matches (lines : List RawRecord) (sid : Str)
    (hsid : sid ≠ []) (c : ChatDao) :
    ∀ (t : Nat) (st : PCState), cacheGet st.chat_cache sid = some c →
      (∀ r ∈ lines, clock_independent_ts r) →
      ∀ r ∈ lines, ∀ t' : Nat,
        ∃ m ∈ (replay_lines st sid lines t).store.messages,
          dup_matches (parse_claude_message 1 r (some sid) t') c.id m
            = true := by
  induction lines with
  | nil => intro t st hc hts r hr; cases hr
  | cons r0 rest ih =>
    intro t st hc hts r hr t'
    have hps : (parse_claude_message 1 r0 (some sid) t).session_id = sid :=
      parse_session_id_override 1 r0 sid t hsid
    obtain ⟨hcache, ⟨tail1, hmsgs1⟩, m0, hm0mem, hm0match⟩ :=
      persist_cache_hit_shape st (parse_claude_message 1 r0 (some sid) t) c
        (by rw [hps]; exact hc) (by rw [hps]; exact hsid)
    have hc₁ : cacheGet
        (persist_message st (parse_claude_message 1 r0 (some sid) t)
          none).2.chat_cache sid = some c := by
      rw [hcache]; exact hc
    rw [replay_lines_cons]
    rcases List.mem_cons.mp hr with rfl | hr'
    · obtain ⟨-, tail2, hfin⟩ := replay_preserves rest sid hsid c (t + 1) _ hc₁
      refine ⟨m0, ?_, ?_⟩
      · rw [hfin]; exact List.mem_append_left _ hm0mem
      · rw [← dup_matches_parse_clock_free r sid t t' c.id m0
          (hts r (by simp))]
        exact hm0match
    · exact ih (t + 1) _ hc₁ (fun y hy => hts y (by simp [hy])) r hr' t'

theorem replay_noop (lines : List RawRecord) (sid : Str)
    (hsid : sid ≠ []) (c : ChatDao) :
    ∀ (t : Nat) (st : PCState), cacheGet st.chat_cache sid = some c →
      (∀ r ∈ lines, ∀ t' : Nat, ∃ m ∈ st.store.messages,
        dup_matches (parse_claude_message 1 r (some sid) t') c.id m = true) →
      replay_lines st sid lines t = st := by
  induction lines with
  | nil => intro t st hc hm; rfl
  | cons r rest ih =>
    intro t st hc hm
    have hps : (parse_claude_message 1 r (some sid) t).session_id = sid :=
      parse_session_id_override 1 r sid t hsid
    have hstep : (persist_message st
        (parse_claude_message 1 r (some sid) t) none).2 = st :=
      persist_noop st (parse_claude_message 1 r (some sid) t) c
        (by rw [hps]; exact hc) (hm r (by simp) t)
    rw [replay_lines_cons, hstep]
    exact ih (t + 1) st hc (fun y hy t' => hm y (by simp [hy]) t')

/-- C2 counterexample: a result record carrying no timestamp is stamped
with the wall clock at parse time.  Replaying the single-line session at
clock 0 yields one mirror row; replaying the same line again at clock 1
produces a different duplicate-detection key (type + timestamp) and a
second row is inserted: 2 rows after the double replay, not 1. -/
theorem C2_counterexample :
    message_count (replay_lines PCState.empty (pyStr "s")
        [resRecNoTs] 0) = 1 ∧
    message_count (replay_lines
        (replay_lines PCState.empty (pyStr "s") [resRecNoTs] 0)
        (pyStr "s") [resRecNoTs] 1) = 2 := by
  decide

/-- C2 (amended): for a session with a non-empty id, replaying the same
decoded source lines through the parse-then-persist path twice yields
exactly the same mirror row count as replaying once, PROVIDED every
system/result line carries a non-empty parseable timestamp (so its
duplicate-detection key does not depend on the wall clock).  Without
that proviso the parser stamps `utcnow()` and a system/result line
replayed at a different time is inserted again — see the
counterexample. -/
theorem C2_replay_idempotent (sid : Str) (lines : List RawRecord)
    (t₁ t₂ : Nat) (hsid : sid ≠ [])
    (hts : ∀ r ∈ lines, clock_independent_ts r) :
    message_count (replay_lines (replay_lines PCState.empty sid lines t₁)
        sid lines t₂) =
      message_count (replay_lines PCState.empty sid lines t₁) := by
  cases lines with
  | nil => rfl
  | cons r rest =>
    have hps : (parse_claude_message 1 r (some sid) t₁).session_id = sid :=
      parse_session_id_override 1 r sid t₁ hsid
    obtain ⟨c, hc, m0, hm0mem, hm0match⟩ :=
      persist_empty_establishes (parse_claude_message 1 r (some sid) t₁)
        (by rw [hps]; exact hsid)
    rw [hps] at hc
    have hrepl1 : replay_lines PCState.empty sid (r :: rest) t₁ =
        replay_lines
          (persist_message PCState.empty
            (parse_claude_message 1 r (some sid) t₁) none).2
          sid rest (t₁ + 1) := rfl
    obtain ⟨hScache, tailS, hSmsgs⟩ :=
      replay_preserves rest sid hsid c (t₁ + 1) _ hc
    have hmatches : ∀ x ∈ (r :: rest), ∀ t' : Nat,
        ∃ m ∈ (replay_lines
            (persist_message PCState.empty
              (parse_claude_message 1 r (some sid) t₁) none).2
            sid rest (t₁ + 1)).store.messages,
          dup_matches (parse_claude_message 1 x (some sid) t') c.id m
            = true := by
      intro x hx t'
      rcases List.mem_cons.mp hx with rfl | hx'
      · refine ⟨m0, ?_, ?_⟩
        · rw [hSmsgs]; exact List.mem_append_left _ hm0mem
        · rw [← dup_matches_parse_clock_free x sid t₁ t' c.id m0
            (hts x (by simp))]
          exact hm0match
      · exact replay_matches rest sid hsid c (t₁ + 1) _ hc
          (fun y hy => hts y (by simp [hy])) x hx' t'
    have hnoop := replay_noop (r :: rest) sid hsid c t₂ _ hScache hmatches
    rw [hrepl1, hnoop]

theorem C2_replay_idempotent_witness :
    (pyStr "s" ≠ ([] : Str)) ∧
    (∀ r ∈ [resRecTs], clock_independent_ts r) ∧
    message_count (replay_lines
        (replay_lines PCState.empty (pyStr "s") [resRecTs] 0)
        (pyStr "s") [resRecTs] 5) =
      message_count (replay_lines PCState.empty (pyStr "s") [resRecTs] 0) :=
  ⟨by decide, by decide,
   C2_replay_idempotent (pyStr "s") [resRecTs] 0 5 (by decide) (by decide)⟩

end Cafedelia
